import Mathlib

/-!
Verification development for the usdb_syncer song loader core
(src/usdb_syncer/song_loader.py) and the song table controller
(src/usdb_syncer/gui/song_table/song_table.py).

The Python code is shallowly embedded: pure logic becomes Lean functions,
the stateful orchestration of one download task becomes explicit state
passing over a `Context` record plus an event trace, and external
collaborators (network fetch, resource download, filesystem primitives,
the iso639 language lookup) are an oracle `Env` whose operations return
`Except Unit _` so that a raised Python exception is representable.
Filenames and directory names are modelled structurally (stem + extension,
stem + optional numeric suffix) rather than as raw strings, which captures
exactly the naming discipline the loader relies on.
-/

/-- A directory name under the song directory: the sanitized stem, optionally
with the numeric suffix appended by collision handling. -/
inductive DirName where
  | plain (stem : String)
  | suffixed (stem : String) (n : Nat)
deriving DecidableEq, Repr

/-- The stem part of a directory name (the part compared by
is_name_maybe_with_suffix). -/
def DirName.stem : DirName → String
  | .plain s => s
  | .suffixed s _ => s

/-- A file name in the song directory: stem plus extension.  All resource
files written by the loader have this shape (locations.file_path). -/
structure FName where
  stem : String
  ext : String
deriving DecidableEq, Repr

/-- The rendered file name, as stored in txt headers (os.path.basename). -/
def FName.render (f : FName) : String := f.stem ++ "." ++ f.ext

/-- A per-slot resource descriptor of SyncMeta: relative filename and the
source resource identifier it was built from. -/
structure FileMeta where
  fname : FName
  resource : String
deriving DecidableEq, Repr

/-- Modelled from the spec: the meta-tag fingerprints stored in SyncMeta and
parsed from the song txt (usdb_syncer.meta_tags.MetaTags, not under src/).
Per spec section 3 the fingerprints are the audio/video/cover/background
resource URLs from the lyric file's embedded directives; `audioOnly` is the
"song is audio only" declaration consulted by the video slot. -/
structure MetaTags where
  audio : Option String
  video : Option String
  cover : Option String
  background : Option String
  audioOnly : Bool
deriving DecidableEq, Repr

/-- Modelled from the spec: the per-song sync metadata record
(usdb_syncer.sync_meta.SyncMeta, not under src/): song id, meta-tag
fingerprints, one optional resource descriptor per slot, pinned flag. -/
structure SyncMeta where
  songId : Nat
  metaTags : MetaTags
  audio : Option FileMeta
  video : Option FileMeta
  cover : Option FileMeta
  background : Option FileMeta
  txt : Option FileMeta
  pinned : Bool
deriving DecidableEq, Repr

/-- Modelled from the spec: SyncMeta.new seeds a fresh record with the
current meta tags and empty slots (spec section 4.2). -/
def SyncMeta.new (songId : Nat) (tags : MetaTags) : SyncMeta :=
  ⟨songId, tags, none, none, none, none, none, false⟩

/-- Modelled from the spec: the synced_audio accessor returns the audio
descriptor only when the referenced file still exists in the song directory
(spec section 4.2); `files` is the directory listing. -/
def synced_audio (sm : SyncMeta) (files : List (FName × Nat)) : Option FileMeta :=
  match sm.audio with
  | some m => if files.any (fun p => decide (p.1 = m.fname)) then some m else none
  | none => none

/-- Modelled from the spec: existence-checking accessor for the video slot. -/
def synced_video (sm : SyncMeta) (files : List (FName × Nat)) : Option FileMeta :=
  match sm.video with
  | some m => if files.any (fun p => decide (p.1 = m.fname)) then some m else none
  | none => none

/-- Modelled from the spec: existence-checking accessor for the cover slot. -/
def synced_cover (sm : SyncMeta) (files : List (FName × Nat)) : Option FileMeta :=
  match sm.cover with
  | some m => if files.any (fun p => decide (p.1 = m.fname)) then some m else none
  | none => none

/-- Modelled from the spec: existence-checking accessor for the background
slot. -/
def synced_background (sm : SyncMeta) (files : List (FName × Nat)) : Option FileMeta :=
  match sm.background with
  | some m => if files.any (fun p => decide (p.1 = m.fname)) then some m else none
  | none => none

/-- Modelled from the spec: set_audio_meta records filename and source
identifier for the audio slot (spec section 4.2). -/
def set_audio_meta (sm : SyncMeta) (f : FName) (resource : String) : SyncMeta :=
  { sm with audio := some ⟨f, resource⟩ }

/-- Modelled from the spec: set_video_meta. -/
def set_video_meta (sm : SyncMeta) (f : FName) (resource : String) : SyncMeta :=
  { sm with video := some ⟨f, resource⟩ }

/-- Modelled from the spec: set_cover_meta. -/
def set_cover_meta (sm : SyncMeta) (f : FName) (resource : String) : SyncMeta :=
  { sm with cover := some ⟨f, resource⟩ }

/-- Modelled from the spec: set_background_meta. -/
def set_background_meta (sm : SyncMeta) (f : FName) (resource : String) : SyncMeta :=
  { sm with background := some ⟨f, resource⟩ }

/-- Modelled from the spec: set_txt_meta records the filename of the written
song txt (it has no remote source resource, recorded as the empty string). -/
def set_txt_meta (sm : SyncMeta) (f : FName) : SyncMeta :=
  { sm with txt := some ⟨f, ""⟩ }

/-- The remote song details consumed by the loader (usdb_scraper.SongDetails
interface): the small usdb cover fallback URL and the video resources found
in comments (details.all_comment_videos). -/
structure SongDetails where
  coverUrl : Option String
  commentVideos : List String
deriving DecidableEq, Repr

/-- The mutable txt headers the loader updates (ctx.txt.headers): resource
file references. `none` models an absent or empty header. -/
structure Headers where
  mp3 : Option String
  video : Option String
  cover : Option String
  background : Option String
deriving DecidableEq, Repr

/-- The parsed and sanitized song txt (SongTxt interface): the sanitized
artist - title string, the embedded meta tags, the main language (for the
mp3 tag embedding's iso639 lookup) and the initial headers. -/
structure SongTxt where
  artistTitle : String
  metaTags : MetaTags
  language : String
  headers : Headers
deriving DecidableEq, Repr

/-- The per-run snapshot of download options (download_options()): which
slots are enabled, and the background policy taking "a video header is
present" to "download the background". -/
structure Options where
  audioOptions : Bool
  videoOptions : Bool
  cover : Bool
  backgroundOptions : Bool
  downloadBackground : Bool → Bool
  txtOptions : Bool

/-- DownloadInfo: song id plus the optional existing metadata-file path,
which determines the song directory when present. -/
structure DownloadInfo where
  songId : Nat
  metaPath : Option DirName
deriving DecidableEq, Repr

/-- DownloadResult: the terminal value passed to on_finish; `files` is the
LocalFiles summary built from the final SyncMeta, absent on total failure. -/
structure DownloadResult where
  songId : Nat
  files : Option SyncMeta
deriving DecidableEq, Repr

/-- The image kinds passed to download_and_process_image. -/
inductive ImageKind where
  | cover
  | background
deriving DecidableEq, Repr

/-- Observable actions of one loader run: lifecycle callbacks, filesystem
operations, and the calls to the external download primitives. -/
inductive Event where
  | onStart (songId : Nat)
  | onFinish (r : DownloadResult)
  | mkdir (d : DirName)
  | renameDir (a b : DirName)
  | renameFile (a b : FName)
  | dlAudio (resource : String)
  | dlVideo (resource : String)
  | dlCover (url : String)
  | dlBackground (url : String)
  | writeTxt
  | writeMeta
  | saveTags
deriving DecidableEq, Repr

/-- True for the calls to the external download primitives
(resource_dl.download_audio, download_video, download_and_process_image). -/
def Event.isDownloadCall : Event → Bool
  | .dlAudio _ | .dlVideo _ | .dlCover _ | .dlBackground _ => true
  | _ => false

/-- True for on_finish invocations. -/
def Event.isFinish : Event → Bool
  | .onFinish _ => true
  | _ => false

/-- Number of on_finish invocations in a trace. -/
def finishCount (evs : List Event) : Nat :=
  (evs.filter Event.isFinish).length

/-- Number of download-primitive calls in a trace. -/
def downloadCallCount (evs : List Event) : Nat :=
  (evs.filter Event.isDownloadCall).length

/-- The oracle for the external collaborators of one run.  Each operation
returns `Except Unit _`: `.error` models the Python call raising an
exception, `.ok` its normal return (with `none` for a falsy failure value).
Tag embedding internals (mutagen) are abstracted to the outcome of the final
save; the iso639 `Lang` constructor is `lang`, which raises on an unknown
language name. -/
structure Env where
  details : Except Unit (Option SongDetails)
  notes : Except Unit (Option SongTxt)
  sanitize : String → String
  mkdirRes : Except Unit Unit
  dlAudio : String → Except Unit (Option String)
  dlVideo : String → Except Unit (Option String)
  dlImage : ImageKind → String → Except Unit (Option String)
  lang : String → Except Unit String
  saveTags : Except Unit Unit

/-- A materialized song directory: its name, its resource files (name and an
abstract content identifier), and the persisted metadata file if any. -/
structure SongDir where
  name : DirName
  files : List (FName × Nat)
  metaFile : Option SyncMeta
deriving DecidableEq, Repr

/-- The filesystem state a run starts from and leaves behind. -/
structure World where
  dirs : List SongDir
deriving DecidableEq, Repr

/-- Modelled from the spec: next_unique_directory (usdb_syncer.utils, not
under src/) returns the stem itself if free, otherwise the stem with the
first free numeric suffix appended (spec section 4.1). -/
def nextUniqueDir (taken : List DirName) (stem : String) : DirName :=
  if DirName.plain stem ∈ taken then
    match (List.range (taken.length + 1)).find?
        (fun k => decide (¬ DirName.suffixed stem (k + 1) ∈ taken)) with
    | some k => DirName.suffixed stem (k + 1)
    | none => DirName.suffixed stem (taken.length + 2)
  else DirName.plain stem

/-- The transient per-task aggregate (Context) together with the filesystem
view of the song directory the task owns. -/
structure Context where
  details : SongDetails
  options : Options
  txt : SongTxt
  headers : Headers
  stem : String
  dirName : DirName
  syncMeta : SyncMeta
  files : List (FName × Nat)
  dirMetaFile : Option SyncMeta

/-- Candidate video resources: the video meta tag, then the comment videos
(Context.all_video_resources). -/
def all_video_resources (txt : SongTxt) (details : SongDetails) : List String :=
  (match txt.metaTags.video with | some v => [v] | none => []) ++ details.commentVideos

/-- Candidate audio resources: the audio meta tag, then all video resources
(Context.all_audio_resources). -/
def all_audio_resources (txt : SongTxt) (details : SongDetails) : List String :=
  (match txt.metaTags.audio with | some a => [a] | none => []) ++
    all_video_resources txt details

/-- The cover URL: the cover meta tag's source URL if present, else the small
usdb cover from the song details (Context.cover_url).  Per spec section 3
the stored fingerprint is the source URL itself. -/
def cover_url (txt : SongTxt) (details : SongDetails) : Option String :=
  match txt.metaTags.cover with
  | some c => some c
  | none => details.coverUrl

/-- The background URL: the background meta tag's source URL if present
(Context.background_url). -/
def background_url (txt : SongTxt) : Option String :=
  txt.metaTags.background

/-- Outcome of walking one slot's candidate list, with the list of resources
that were actually passed to the download primitive. -/
inductive NegRes where
  | reused (m : FileMeta) (attempts : List String)
  | success (resource ext : String) (attempts : List String)
  | exhausted (attempts : List String)
  | raised (attempts : List String)
deriving DecidableEq, Repr

/-- The attempted resources of a negotiation outcome. -/
def NegRes.attempts : NegRes → List String
  | .reused _ a => a
  | .success _ _ a => a
  | .exhausted a => a
  | .raised a => a

/-- Prepend a failed attempt to a negotiation outcome. -/
def NegRes.addAttempt (r : String) : NegRes → NegRes
  | .reused m a => .reused m (r :: a)
  | .success res e a => .success res e (r :: a)
  | .exhausted a => .exhausted (r :: a)
  | .raised a => .raised (r :: a)

/-- True for the `.raised` outcome. -/
def NegRes.isRaised : NegRes → Bool
  | .raised _ => true
  | _ => false

/-- The candidate walk shared by _maybe_download_audio and
_maybe_download_video: for each candidate at index `idx`, first reuse if the
previously synced descriptor's resource equals the candidate, then break
once `idx > 9`, else call the download primitive; a successful call ends the
walk, a falsy result moves to the next candidate. -/
def negotiate (meta : Option FileMeta) (dl : String → Except Unit (Option String)) :
    List String → Nat → NegRes
  | [], _ => .exhausted []
  | r :: rs, idx =>
    match meta with
    | some m =>
      if m.resource = r then .reused m []
      else if 9 < idx then .exhausted []
      else
        match dl r with
        | .error _ => .raised [r]
        | .ok (some ext) => .success r ext [r]
        | .ok none => (negotiate (some m) dl rs (idx + 1)).addAttempt r
    | none =>
      if 9 < idx then .exhausted []
      else
        match dl r with
        | .error _ => .raised [r]
        | .ok (some ext) => .success r ext [r]
        | .ok none => (negotiate none dl rs (idx + 1)).addAttempt r

/-- Insert or overwrite a file in the song directory listing; a fresh
download's content is the identifier 0. -/
def upsertFile (files : List (FName × Nat)) (f : FName) : List (FName × Nat) :=
  if files.any (fun p => decide (p.1 = f)) then
    files.map (fun p => if p.1 = f then (f, 0) else p)
  else (f, 0) :: files

/-- Result of one orchestration step: updated context, emitted events, and
whether the step raised an exception. -/
structure StepOut where
  ctx : Context
  events : List Event
  raised : Bool

/-- _maybe_download_audio: skip without audio options; otherwise walk the
audio candidates, reusing the recorded descriptor on a resource match,
recording a new descriptor and the mp3 header on success. -/
def maybe_download_audio (env : Env) (c : Context) : StepOut :=
  if c.options.audioOptions = false then ⟨c, [], false⟩
  else
    let meta := synced_audio c.syncMeta c.files
    match negotiate meta env.dlAudio (all_audio_resources c.txt c.details) 0 with
    | .reused m att =>
        ⟨{ c with headers := { c.headers with mp3 := some m.fname.render } },
          att.map Event.dlAudio, false⟩
    | .success r ext att =>
        let f : FName := ⟨c.stem, ext⟩
        ⟨{ c with
            files := upsertFile c.files f,
            syncMeta := set_audio_meta c.syncMeta f r,
            headers := { c.headers with mp3 := some f.render } },
          att.map Event.dlAudio, false⟩
    | .exhausted att => ⟨c, att.map Event.dlAudio, false⟩
    | .raised att => ⟨c, att.map Event.dlAudio, true⟩

/-- _maybe_download_video: additionally skipped when the meta tags declare
the song audio only. -/
def maybe_download_video (env : Env) (c : Context) : StepOut :=
  if c.options.videoOptions = false then ⟨c, [], false⟩
  else if c.txt.metaTags.audioOnly then ⟨c, [], false⟩
  else
    let meta := synced_video c.syncMeta c.files
    match negotiate meta env.dlVideo (all_video_resources c.txt c.details) 0 with
    | .reused m att =>
        ⟨{ c with headers := { c.headers with video := some m.fname.render } },
          att.map Event.dlVideo, false⟩
    | .success r ext att =>
        let f : FName := ⟨c.stem, ext⟩
        ⟨{ c with
            files := upsertFile c.files f,
            syncMeta := set_video_meta c.syncMeta f r,
            headers := { c.headers with video := some f.render } },
          att.map Event.dlVideo, false⟩
    | .exhausted att => ⟨c, att.map Event.dlVideo, false⟩
    | .raised att => ⟨c, att.map Event.dlVideo, true⟩

/-- _maybe_download_cover: reuse only when the stored cover fingerprint
equals the current cover meta tag and the recorded file still exists;
otherwise call the image download primitive once. -/
def maybe_download_cover (env : Env) (c : Context) : StepOut :=
  if c.options.cover = false then ⟨c, [], false⟩
  else
    match cover_url c.txt c.details with
    | none => ⟨c, [], false⟩
    | some url =>
      let reuse : Option FileMeta :=
        if c.syncMeta.metaTags.cover = c.txt.metaTags.cover then
          synced_cover c.syncMeta c.files
        else none
      match reuse with
      | some m =>
          ⟨{ c with headers := { c.headers with cover := some m.fname.render } },
            [], false⟩
      | none =>
        match env.dlImage ImageKind.cover url with
        | .error _ => ⟨c, [Event.dlCover url], true⟩
        | .ok (some ext) =>
            let f : FName := ⟨c.stem, ext⟩
            ⟨{ c with
                files := upsertFile c.files f,
                syncMeta := set_cover_meta c.syncMeta f url,
                headers := { c.headers with cover := some f.render } },
              [Event.dlCover url], false⟩
        | .ok none => ⟨c, [Event.dlCover url], false⟩

/-- _maybe_download_background: gated by the background policy applied to
the current video header, then like the cover slot. -/
def maybe_download_background (env : Env) (c : Context) : StepOut :=
  if c.options.backgroundOptions = false then ⟨c, [], false⟩
  else if c.options.downloadBackground c.headers.video.isSome = false then ⟨c, [], false⟩
  else
    match background_url c.txt with
    | none => ⟨c, [], false⟩
    | some url =>
      let reuse : Option FileMeta :=
        if c.syncMeta.metaTags.background = c.txt.metaTags.background then
          synced_background c.syncMeta c.files
        else none
      match reuse with
      | some m =>
          ⟨{ c with headers := { c.headers with background := some m.fname.render } },
            [], false⟩
      | none =>
        match env.dlImage ImageKind.background url with
        | .error _ => ⟨c, [Event.dlBackground url], true⟩
        | .ok (some ext) =>
            let f : FName := ⟨c.stem, ext⟩
            ⟨{ c with
                files := upsertFile c.files f,
                syncMeta := set_background_meta c.syncMeta f url,
                headers := { c.headers with background := some f.render } },
              [Event.dlBackground url], false⟩
        | .ok none => ⟨c, [Event.dlBackground url], false⟩

/-- _maybe_write_txt: write the song txt file and record it in SyncMeta. -/
def maybe_write_txt (c : Context) : StepOut :=
  if c.options.txtOptions = false then ⟨c, [], false⟩
  else
    let f : FName := ⟨c.stem, "txt"⟩
    ⟨{ c with
        files := upsertFile c.files f,
        syncMeta := set_txt_meta c.syncMeta f },
      [Event.writeTxt], false⟩

/-- _write_sync_meta: persist the current SyncMeta into the song directory. -/
def write_sync_meta (c : Context) : StepOut :=
  ⟨{ c with dirMetaFile := some c.syncMeta }, [Event.writeMeta], false⟩

/-- _maybe_write_audio_tags: only with audio options and a recorded audio
descriptor; the m4a and mp3 containers are tagged (the mp3 path first
performs the iso639 language lookup, which can raise), other containers are
skipped.  The mutagen edit-and-save sequence is abstracted to the outcome of
the save. -/
def maybe_write_audio_tags (env : Env) (c : Context) : StepOut :=
  if c.options.audioOptions = false then ⟨c, [], false⟩
  else
    match c.syncMeta.audio with
    | none => ⟨c, [], false⟩
    | some m =>
      if m.fname.ext = "m4a" then
        match env.saveTags with
        | .error _ => ⟨c, [Event.saveTags], true⟩
        | .ok _ => ⟨c, [Event.saveTags], false⟩
      else if m.fname.ext = "mp3" then
        match env.lang c.txt.language with
        | .error _ => ⟨c, [], true⟩
        | .ok _ =>
          match env.saveTags with
          | .error _ => ⟨c, [Event.saveTags], true⟩
          | .ok _ => ⟨c, [Event.saveTags], false⟩
      else ⟨c, [], false⟩

/-- Sequencing of orchestration steps: a raised exception short-circuits the
remaining steps (there is no handler in SongLoader.run). -/
def thenStep (s : StepOut) (f : Context → StepOut) : StepOut :=
  if s.raised then s
  else
    let t := f s.ctx
    ⟨t.ctx, s.events ++ t.events, t.raised⟩

/-- The filesystem view ensure_correct_paths operates on: the names of the
sibling directories, the song directory's own name, and its files. -/
structure FS where
  others : List DirName
  dirName : DirName
  files : List (FName × Nat)
deriving DecidableEq, Repr

/-- One iteration of Locations._fix_resource_paths: compute the new expected
filename (current stem, original extension per resource_file_ending) and
rename on disk unless the names already coincide, the target exists, or the
old file is missing; update the recorded filename on rename. -/
def fixOne (stem : String) (files : List (FName × Nat)) (m : FileMeta) :
    List (FName × Nat) × FileMeta × List Event :=
  let oldN := m.fname
  let newN : FName := ⟨stem, m.fname.ext⟩
  if oldN = newN ∨ files.any (fun p => decide (p.1 = newN)) = true ∨
      files.any (fun p => decide (p.1 = oldN)) = false then
    (files, m, [])
  else
    (files.map (fun p => if p.1 = oldN then (newN, p.2) else p),
      { m with fname := newN }, [Event.renameFile oldN newN])

/-- Lift fixOne to an optional slot descriptor. -/
def fixOpt (stem : String) (files : List (FName × Nat)) :
    Option FileMeta → List (FName × Nat) × Option FileMeta × List Event
  | none => (files, none, [])
  | some m =>
    let r := fixOne stem files m
    (r.1, some r.2.1, r.2.2)

/-- Locations._fix_resource_paths over every resource file recorded in
SyncMeta (SyncMeta.file_metas, modelled from the spec as the recorded slot
descriptors in slot order). -/
def fix_resource_paths (stem : String) (files : List (FName × Nat)) (sm : SyncMeta) :
    List (FName × Nat) × SyncMeta × List Event :=
  let ra := fixOpt stem files sm.audio
  let rv := fixOpt stem ra.1 sm.video
  let rc := fixOpt stem rv.1 sm.cover
  let rb := fixOpt stem rc.1 sm.background
  let rt := fixOpt stem rb.1 sm.txt
  (rt.1,
    { sm with audio := ra.2.1, video := rv.2.1, cover := rc.2.1,
              background := rb.2.1, txt := rt.2.1 },
    ra.2.2 ++ rv.2.2 ++ rc.2.2 ++ rb.2.2 ++ rt.2.2)

/-- Locations.ensure_correct_paths: no-op when the directory name already
matches the current stem up to an optional numeric suffix
(is_name_maybe_with_suffix); otherwise rename the directory to a fresh
unique name based on the new stem and fix every recorded resource path. -/
def ensure_correct_paths (stem : String) (fs : FS) (sm : SyncMeta) :
    FS × SyncMeta × List Event :=
  if fs.dirName.stem = stem then (fs, sm, [])
  else
    let newDir := nextUniqueDir fs.others stem
    let r := fix_resource_paths stem fs.files sm
    (⟨fs.others, newDir, r.1⟩, r.2.1,
      Event.renameDir fs.dirName newDir :: r.2.2)

/-- Result of one loader run: the event trace, the final filesystem state,
and whether an exception escaped the task. -/
structure RunResult where
  events : List Event
  world : World
  raised : Bool
deriving Repr

/-- The strictly sequential step chain of SongLoader.run after the context
has been created: the four resource slots, txt write, metadata persist, tag
embedding. -/
def runSteps (env : Env) (c0 : Context) : StepOut :=
  thenStep (thenStep (thenStep (thenStep (thenStep (thenStep
    (maybe_download_audio env c0)
    (maybe_download_video env))
    (maybe_download_cover env))
    (maybe_download_background env))
    maybe_write_txt)
    write_sync_meta)
    (maybe_write_audio_tags env)

/-- SongLoader.run after details and notes have been fetched successfully:
resolve locations, load or create SyncMeta, mkdir, ensure_correct_paths,
then the step chain, then the final on_finish with the LocalFiles summary.
A raised exception propagates: the remaining steps are skipped and no
on_finish happens. -/
def runCore (env : Env) (opt : Options) (info : DownloadInfo) (w : World)
    (details : SongDetails) (txt : SongTxt) : RunResult :=
  let start := [Event.onStart info.songId]
  let stem := env.sanitize txt.artistTitle
  let dirName := match info.metaPath with
    | some d => d
    | none => nextUniqueDir (w.dirs.map SongDir.name) stem
  let existing := w.dirs.find? (fun sd => decide (sd.name = dirName))
  let others := w.dirs.filter (fun sd => !decide (sd.name = dirName))
  let syncMeta0 := match existing with
    | some sd =>
      match sd.metaFile with
      | some m => m
      | none => SyncMeta.new info.songId txt.metaTags
    | none => SyncMeta.new info.songId txt.metaTags
  match env.mkdirRes with
  | .error _ => ⟨start ++ [Event.mkdir dirName], w, true⟩
  | .ok _ =>
    let dir0 : SongDir := match existing with
      | some sd => sd
      | none => ⟨dirName, [], none⟩
    let ecp := ensure_correct_paths stem ⟨others.map SongDir.name, dir0.name, dir0.files⟩ syncMeta0
    let c0 : Context :=
      { details := details, options := opt, txt := txt,
        headers := txt.headers, stem := stem, dirName := ecp.1.dirName,
        syncMeta := ecp.2.1, files := ecp.1.files,
        dirMetaFile := dir0.metaFile }
    let s := runSteps env c0
    let world1 : World := ⟨⟨s.ctx.dirName, s.ctx.files, s.ctx.dirMetaFile⟩ :: others⟩
    let evs := start ++ [Event.mkdir dirName] ++ ecp.2.2 ++ s.events
    if s.raised then ⟨evs, world1, true⟩
    else ⟨evs ++ [Event.onFinish ⟨info.songId, some s.ctx.syncMeta⟩], world1, false⟩

/-- SongLoader.run for one DownloadInfo over the oracle `env`, starting from
world `w`: on_start, fetch details (absent ends the run with an empty
result), fetch and parse notes (absent means not logged in, same), then the
core orchestration. -/
def runLoader (env : Env) (opt : Options) (info : DownloadInfo) (w : World) : RunResult :=
  let start := [Event.onStart info.songId]
  match env.details with
  | .error _ => ⟨start, w, true⟩
  | .ok none => ⟨start ++ [Event.onFinish ⟨info.songId, none⟩], w, false⟩
  | .ok (some details) =>
    match env.notes with
    | .error _ => ⟨start, w, true⟩
    | .ok none => ⟨start ++ [Event.onFinish ⟨info.songId, none⟩], w, false⟩
    | .ok (some txt) => runCore env opt info w details txt

/-- Modelled from the spec: the per-song database record the song table
operates on (usdb_syncer.usdb_song.UsdbSong, not under src/): its optional
sync metadata carries the pinned flag (spec section 3) and the song folder
path (abstracted to a number); `canBeDownloaded` is the status predicate
status.can_be_downloaded(). -/
structure DbSyncMeta where
  pinned : Bool
  path : Nat
deriving DecidableEq, Repr

/-- Modelled from the spec: see DbSyncMeta. -/
structure UsdbSong where
  songId : Nat
  syncMeta : Option DbSyncMeta
  canBeDownloaded : Bool
deriving DecidableEq, Repr

/-- Modelled from the spec: UsdbSong.is_pinned is the pinned flag of the
song's sync metadata, false without sync metadata. -/
def UsdbSong.is_pinned (s : UsdbSong) : Bool :=
  match s.syncMeta with
  | some m => m.pinned
  | none => false

/-- The batch-building loop of SongTable._download: skip songs whose sync
meta is pinned, keep the remaining ones whose status allows a download. -/
def to_download : List UsdbSong → List UsdbSong
  | [] => []
  | s :: rest =>
    if (match s.syncMeta with | some m => m.pinned | none => false) then
      to_download rest
    else if s.canBeDownloaded then s :: to_download rest
    else to_download rest

/-- The folders sent to the trash by SongTable.delete_selected_songs: songs
without sync meta are skipped, pinned songs are skipped, the rest have
their sync meta path trashed. -/
def delete_selected_trashed : List UsdbSong → List Nat
  | [] => []
  | s :: rest =>
    match s.syncMeta with
    | none => delete_selected_trashed rest
    | some m =>
      if m.pinned then delete_selected_trashed rest
      else m.path :: delete_selected_trashed rest

/-- The signature of a Python function: its required positional parameters
(none of song_loader.download_songs' parameters has a default). -/
structure PySignature where
  required : List String
deriving DecidableEq, Repr

/-- song_loader.download_songs declares three required parameters. -/
def download_songs_signature : PySignature :=
  ⟨["infos", "on_start", "on_finish"]⟩

/-- Python positional call semantics: calling with fewer arguments than
required parameters raises TypeError before the body runs. -/
def callPositional (sig : PySignature) (nargs : Nat) : Except String Nat :=
  if nargs < sig.required.length then
    .error "TypeError: missing required positional arguments"
  else if sig.required.length < nargs then
    .error "TypeError: too many positional arguments"
  else .ok nargs

/-- The dispatch at the end of SongTable._download: when the batch is
nonempty, evaluate the call download_songs(to_download), which passes one
positional argument. -/
def dispatch_download_songs (batch : List UsdbSong) : Option (Except String Nat) :=
  if batch.isEmpty then none
  else some (callPositional download_songs_signature 1)

/-! ### Concrete scenario data used by witnesses and counterexamples -/

/-- An oracle whose operations all complete normally: remote details with no
cover URL and no comment videos, a minimal parsed txt, failing (falsy)
resource downloads. -/
def env_all_ok : Env :=
  { details := Except.ok (some ⟨none, []⟩),
    notes := Except.ok (some ⟨"Artist - Title", ⟨none, none, none, none, false⟩,
      "English", ⟨none, none, none, none⟩⟩),
    sanitize := fun s => s,
    mkdirRes := Except.ok (),
    dlAudio := fun _ => Except.ok none,
    dlVideo := fun _ => Except.ok none,
    dlImage := fun _ _ => Except.ok none,
    lang := fun _ => Except.ok "eng",
    saveTags := Except.ok () }

/-- The same oracle, but the details fetch raises (network error). -/
def env_details_raise : Env := { env_all_ok with details := Except.error () }

/-- The same oracle, but the song is absent from the remote catalog. -/
def env_absent : Env := { env_all_ok with details := Except.ok none }

/-- The same oracle, but the notes fetch returns no text (not logged in). -/
def env_no_notes : Env := { env_all_ok with notes := Except.ok none }

/-- Options with every slot enabled. -/
def opt_all : Options := ⟨true, true, true, true, fun _ => true, true⟩

/-- A download request for song 1 without an existing metadata path. -/
def info_demo : DownloadInfo := ⟨1, none⟩

/-- An empty library directory. -/
def world_empty : World := ⟨[]⟩

/-- A fifteen-candidate audio context whose recorded descriptor matches no
candidate: audio meta tag r00, fourteen comment videos r01..r14, recorded
audio resource zz with its file present. -/
def txt_c4 : SongTxt :=
  ⟨"s", ⟨some "r00", none, none, none, false⟩, "English", ⟨none, none, none, none⟩⟩

/-- See txt_c4. -/
def ctx_c4 : Context :=
  { details := ⟨none, ["r01", "r02", "r03", "r04", "r05", "r06", "r07", "r08",
      "r09", "r10", "r11", "r12", "r13", "r14"]⟩,
    options := opt_all, txt := txt_c4, headers := txt_c4.headers,
    stem := "s", dirName := DirName.plain "s",
    syncMeta := { SyncMeta.new 1 txt_c4.metaTags with
      audio := some ⟨⟨"s", "mp3"⟩, "zz"⟩ },
    files := [(⟨"s", "mp3"⟩, 0)], dirMetaFile := none }

/-- An oracle whose audio and video downloads fail except for resource c3. -/
def env_c5 : Env :=
  { env_all_ok with
    dlAudio := fun r => if r = "c3" then Except.ok (some "mp3") else Except.ok none,
    dlVideo := fun r => if r = "c3" then Except.ok (some "mp4") else Except.ok none }

/-- An audio slot with candidates c1, c2, c3 and no recorded descriptor. -/
def txt_c5a : SongTxt :=
  ⟨"s", ⟨some "c1", none, none, none, false⟩, "English", ⟨none, none, none, none⟩⟩

/-- See txt_c5a. -/
def ctx_c5a : Context :=
  { details := ⟨none, ["c2", "c3"]⟩, options := opt_all, txt := txt_c5a,
    headers := txt_c5a.headers, stem := "s", dirName := DirName.plain "s",
    syncMeta := SyncMeta.new 1 txt_c5a.metaTags, files := [], dirMetaFile := none }

/-- A video slot with candidates c1, c2, c3 and no recorded descriptor. -/
def txt_c5v : SongTxt :=
  ⟨"s", ⟨none, some "c1", none, none, false⟩, "English", ⟨none, none, none, none⟩⟩

/-- See txt_c5v. -/
def ctx_c5v : Context :=
  { details := ⟨none, ["c2", "c3"]⟩, options := opt_all, txt := txt_c5v,
    headers := txt_c5v.headers, stem := "s", dirName := DirName.plain "s",
    syncMeta := SyncMeta.new 1 txt_c5v.metaTags, files := [], dirMetaFile := none }

/-- An audio slot whose recorded resource c1 sits at candidate position 1:
candidates are c0 (the audio meta tag) and c1 (a comment video); the
recorded file is present. -/
def txt_c3 : SongTxt :=
  ⟨"s", ⟨some "c0", none, none, none, false⟩, "English", ⟨none, none, none, none⟩⟩

/-- See txt_c3. -/
def ctx_c3 : Context :=
  { details := ⟨none, ["c1"]⟩, options := opt_all, txt := txt_c3,
    headers := txt_c3.headers, stem := "s", dirName := DirName.plain "s",
    syncMeta := { SyncMeta.new 1 txt_c3.metaTags with
      audio := some ⟨⟨"s", "mp3"⟩, "c1"⟩ },
    files := [(⟨"s", "mp3"⟩, 0)], dirMetaFile := none }

/-- A video slot whose recorded resource c1 sits at candidate position 1. -/
def txt_c3v : SongTxt :=
  ⟨"s", ⟨none, some "c0", none, none, false⟩, "English", ⟨none, none, none, none⟩⟩

/-- See txt_c3v. -/
def ctx_c3v : Context :=
  { details := ⟨none, ["c1"]⟩, options := opt_all, txt := txt_c3v,
    headers := txt_c3v.headers, stem := "s", dirName := DirName.plain "s",
    syncMeta := { SyncMeta.new 1 txt_c3v.metaTags with
      video := some ⟨⟨"s", "mp4"⟩, "c1"⟩ },
    files := [(⟨"s", "mp4"⟩, 0)], dirMetaFile := none }

/-- Options enabling only the audio slot. -/
def opt_audio : Options := ⟨true, false, false, false, fun _ => false, false⟩

/-- A song txt whose audio candidates are c0 (meta tag) then c1 (comment). -/
def txt_c2 : SongTxt :=
  ⟨"s", ⟨some "c0", none, none, none, false⟩, "English", ⟨none, none, none, none⟩⟩

/-- An oracle where the download of c0 fails and the download of c1
succeeds, with unchanged remote details and notes across runs. -/
def env_c2 : Env :=
  { env_all_ok with
    details := Except.ok (some ⟨none, ["c1"]⟩),
    notes := Except.ok (some txt_c2),
    dlAudio := fun r => if r = "c1" then Except.ok (some "mp3") else Except.ok none }

/-- The download request reused by both runs of the idempotence scenario. -/
def info_c2 : DownloadInfo := ⟨1, some (DirName.plain "s")⟩

/-- A context in which every slot can reuse its recorded descriptor: each
recorded resource equals the first candidate, the fingerprints are
unchanged and all recorded files are present. -/
def txt_c2w : SongTxt :=
  ⟨"s", ⟨some "c0", some "v0", some "u", some "b", false⟩, "English",
    ⟨none, none, none, none⟩⟩

/-- See txt_c2w. -/
def ctx_c2w : Context :=
  { details := ⟨none, []⟩, options := opt_all, txt := txt_c2w,
    headers := txt_c2w.headers, stem := "s", dirName := DirName.plain "s",
    syncMeta := { SyncMeta.new 1 txt_c2w.metaTags with
      audio := some ⟨⟨"s", "mp3"⟩, "c0"⟩,
      video := some ⟨⟨"s", "mp4"⟩, "v0"⟩,
      cover := some ⟨⟨"s", "jpg"⟩, "u"⟩,
      background := some ⟨⟨"s", "png"⟩, "b"⟩ },
    files := [(⟨"s", "mp3"⟩, 0), (⟨"s", "mp4"⟩, 0), (⟨"s", "jpg"⟩, 0),
      (⟨"s", "png"⟩, 0)],
    dirMetaFile := none }

/-- Options enabling only the cover slot. -/
def opt_cover : Options := ⟨false, false, true, false, fun _ => false, false⟩

/-- A song txt declaring cover meta tag u1. -/
def txt_u1 : SongTxt :=
  ⟨"s", ⟨none, none, some "u1", none, false⟩, "English", ⟨none, none, none, none⟩⟩

/-- The same song txt after the remote cover tag changed to u2. -/
def txt_u2 : SongTxt :=
  ⟨"s", ⟨none, none, some "u2", none, false⟩, "English", ⟨none, none, none, none⟩⟩

/-- First-run oracle: notes carry cover tag u1, image downloads succeed. -/
def env_c8_r1 : Env :=
  { env_all_ok with
    notes := Except.ok (some txt_u1),
    dlImage := fun _ _ => Except.ok (some "jpg") }

/-- Later-run oracle: identical except the notes now carry cover tag u2. -/
def env_c8_r2 : Env := { env_c8_r1 with notes := Except.ok (some txt_u2) }

/-- The download request reused by all runs of the cover scenario. -/
def info_c8 : DownloadInfo := ⟨1, some (DirName.plain "s")⟩

/-- The world after the first cover run (cover u1 downloaded, fingerprint u1
persisted). -/
def c8_world1 : World := (runLoader env_c8_r1 opt_cover info_c8 world_empty).world

/-- The world after the second cover run (cover re-downloaded from u2, but
the persisted fingerprint still reads u1). -/
def c8_world2 : World := (runLoader env_c8_r2 opt_cover info_c8 c8_world1).world

/-- How a recorded slot descriptor may evolve under the rename pass: the
source resource is untouched, the extension is preserved, and the filename
is either retained or rebased onto the new stem. -/
def metaEvolves (stem : String) : Option FileMeta → Option FileMeta → Prop
  | none, none => True
  | some a, some b => b.resource = a.resource ∧ b.fname.ext = a.fname.ext ∧
      (b.fname = a.fname ∨ b.fname = ⟨stem, a.fname.ext⟩)
  | _, _ => False

/-- A sync meta with one recorded audio file named from stem A. -/
def sm_c7 : SyncMeta :=
  { SyncMeta.new 1 ⟨none, none, none, none, false⟩ with
    audio := some ⟨⟨"A", "mp3"⟩, "r"⟩ }

/-- A directory named from stem A holding that audio file (content 7). -/
def fs_c7 : FS := ⟨[], DirName.plain "A", [(⟨"A", "mp3"⟩, 7)]⟩

/-- A selected song whose sync metadata is pinned (folder path 11). -/
def song_pinned : UsdbSong := ⟨1, some ⟨true, 11⟩, true⟩

/-- A selected downloadable song whose sync metadata is not pinned. -/
def song_plain : UsdbSong := ⟨2, some ⟨false, 22⟩, true⟩

/-! ### Basic trace lemmas -/

theorem finishCount_append (a b : List Event) :
    finishCount (a ++ b) = finishCount a + finishCount b := by
  simp [finishCount, List.filter_append]

theorem finishCount_cons_not {e : Event} (h : e.isFinish = false) (l : List Event) :
    finishCount (e :: l) = finishCount l := by
  simp [finishCount, List.filter_cons, h]

theorem finishCount_map_none {α : Type} (f : α → Event)
    (h : ∀ x, (f x).isFinish = false) (l : List α) :
    finishCount (l.map f) = 0 := by
  induction l with
  | nil => rfl
  | cons a t ih => rw [List.map_cons, finishCount_cons_not (h a)]; exact ih

/-! ### Negotiation lemmas -/

theorem addAttempt_attempts (r : String) (n : NegRes) :
    (n.addAttempt r).attempts = r :: n.attempts := by
  cases n <;> rfl

theorem addAttempt_isRaised (r : String) (n : NegRes) :
    (n.addAttempt r).isRaised = n.isRaised := by
  cases n <;> rfl

theorem negotiate_ok (dl : String → Except Unit (Option String))
    (hdl : ∀ r, ∃ v, dl r = Except.ok v) :
    ∀ (cands : List String) (meta : Option FileMeta) (idx : Nat),
    (negotiate meta dl cands idx).isRaised = false := by
  intro cands
  induction cands with
  | nil => intro meta idx; cases meta <;> rfl
  | cons r rs ih =>
    intro meta idx
    obtain ⟨v, hv⟩ := hdl r
    cases meta with
    | some m =>
      by_cases hre : m.resource = r
      · simp [negotiate, hre, NegRes.isRaised]
      · by_cases hidx : 9 < idx
        · simp [negotiate, hre, hidx, NegRes.isRaised]
        · cases v with
          | some ext => simp [negotiate, hre, hidx, hv, NegRes.isRaised]
          | none =>
            simp only [negotiate, if_neg hre, if_neg hidx, hv]
            rw [addAttempt_isRaised]
            exact ih (some m) (idx + 1)
    | none =>
      by_cases hidx : 9 < idx
      · simp [negotiate, hidx, NegRes.isRaised]
      · cases v with
        | some ext => simp [negotiate, hidx, hv, NegRes.isRaised]
        | none =>
          simp only [negotiate, if_neg hidx, hv]
          rw [addAttempt_isRaised]
          exact ih none (idx + 1)

theorem negotiate_attempts_ne (dl : String → Except Unit (Option String))
    (m : FileMeta) :
    ∀ (cands : List String) (idx : Nat) (r : String),
    r ∈ (negotiate (some m) dl cands idx).attempts → ¬ r = m.resource := by
  intro cands
  induction cands with
  | nil => intro idx r hr; simp [negotiate, NegRes.attempts] at hr
  | cons c rs ih =>
    intro idx r hr
    by_cases hre : m.resource = c
    · simp [negotiate, hre, NegRes.attempts] at hr
    · by_cases hidx : 9 < idx
      · simp [negotiate, hre, hidx, NegRes.attempts] at hr
      · simp only [negotiate, if_neg hre, if_neg hidx] at hr
        cases hv : dl c with
        | error e =>
          rw [hv] at hr
          simp [NegRes.attempts] at hr
          intro hrm; exact hre (by rw [← hrm, hr])
        | ok v =>
          rw [hv] at hr
          cases v with
          | some ext =>
            simp [NegRes.attempts] at hr
            intro hrm; exact hre (by rw [← hrm, hr])
          | none =>
            rw [addAttempt_attempts] at hr
            rcases List.mem_cons.mp hr with h | h
            · intro hrm; exact hre (by rw [← hrm, h])
            · exact ih (idx + 1) r h

theorem negotiate_attempts_len (meta : Option FileMeta)
    (dl : String → Except Unit (Option String)) :
    ∀ (cands : List String) (idx : Nat), idx ≤ 10 →
    (negotiate meta dl cands idx).attempts.length + idx ≤ 10 := by
  intro cands
  induction cands with
  | nil => intro idx h; cases meta <;> simpa [negotiate, NegRes.attempts]
  | cons c rs ih =>
    intro idx h
    have step : ¬ 9 < idx →
        (match dl c with
          | .error _ => NegRes.raised [c]
          | .ok (some ext) => NegRes.success c ext [c]
          | .ok none => (negotiate meta dl rs (idx + 1)).addAttempt c).attempts.length
            + idx ≤ 10 := by
      intro hidx
      cases hv : dl c with
      | error e => simp [NegRes.attempts]; omega
      | ok v =>
        cases v with
        | some ext => simp [NegRes.attempts]; omega
        | none =>
          rw [addAttempt_attempts]
          have := ih (idx + 1) (by omega)
          simp only [List.length_cons]
          omega
    cases meta with
    | some m =>
      by_cases hre : m.resource = c
      · simp [negotiate, hre, NegRes.attempts]; omega
      · by_cases hidx : 9 < idx
        · simp [negotiate, hre, hidx, NegRes.attempts]; omega
        · simp only [negotiate, if_neg hre, if_neg hidx]
          exact step hidx
    | none =>
      by_cases hidx : 9 < idx
      · simp [negotiate, hidx, NegRes.attempts]; omega
      · simp only [negotiate, if_neg hidx]
        exact step hidx

theorem negotiate_reuse_head (m : FileMeta)
    (dl : String → Except Unit (Option String)) (rest : List String) (idx : Nat) :
    negotiate (some m) dl (m.resource :: rest) idx = .reused m [] := by
  simp [negotiate]

theorem negotiate_reuse_later (m : FileMeta)
    (dl : String → Except Unit (Option String)) :
    ∀ (pre : List String) (rest : List String) (idx : Nat),
    (∀ r ∈ pre, ¬ r = m.resource) → (∀ r ∈ pre, dl r = Except.ok none) →
    pre.length + idx ≤ 10 →
    negotiate (some m) dl (pre ++ m.resource :: rest) idx = .reused m pre := by
  intro pre
  induction pre with
  | nil => intro rest idx _ _ _; simpa using negotiate_reuse_head m dl rest idx
  | cons c pre' ih =>
    intro rest idx hne hfail hlen
    have hre : ¬ m.resource = c := fun h => hne c (List.mem_cons_self c pre') h.symm
    have hidx : ¬ 9 < idx := by simp [List.length_cons] at hlen; omega
    have hv : dl c = Except.ok none := hfail c (List.mem_cons_self c pre')
    simp only [List.cons_append, negotiate, if_neg hre, if_neg hidx, hv]
    simp only [List.append_eq]
    rw [ih rest (idx + 1)
      (fun r hr => hne r (List.mem_cons_of_mem c hr))
      (fun r hr => hfail r (List.mem_cons_of_mem c hr))
      (by simp [List.length_cons] at hlen; omega)]
    rfl

/-! ### Per-step lemmas: no step invokes on_finish, and no step raises when
the oracle operations it uses complete normally -/

theorem maybe_download_audio_raised (env : Env) (c : Context)
    (h : ∀ r, ∃ v, env.dlAudio r = Except.ok v) :
    (maybe_download_audio env c).raised = false := by
  by_cases hopt : c.options.audioOptions = false
  · simp [maybe_download_audio, hopt]
  · have hr := negotiate_ok env.dlAudio h (all_audio_resources c.txt c.details)
      (synced_audio c.syncMeta c.files) 0
    simp only [maybe_download_audio, if_neg hopt]
    cases hneg : negotiate (synced_audio c.syncMeta c.files) env.dlAudio
        (all_audio_resources c.txt c.details) 0 <;> simp
    rw [hneg] at hr
    simp [NegRes.isRaised] at hr

theorem maybe_download_audio_finish (env : Env) (c : Context) :
    finishCount (maybe_download_audio env c).events = 0 := by
  by_cases hopt : c.options.audioOptions = false
  · simp [maybe_download_audio, hopt, finishCount]
  · simp only [maybe_download_audio, if_neg hopt]
    cases negotiate (synced_audio c.syncMeta c.files) env.dlAudio
        (all_audio_resources c.txt c.details) 0 <;>
      exact finishCount_map_none Event.dlAudio (fun _ => rfl) _

theorem maybe_download_video_raised (env : Env) (c : Context)
    (h : ∀ r, ∃ v, env.dlVideo r = Except.ok v) :
    (maybe_download_video env c).raised = false := by
  by_cases hopt : c.options.videoOptions = false
  · simp [maybe_download_video, hopt]
  · by_cases hao : c.txt.metaTags.audioOnly
    · simp [maybe_download_video, hopt, hao]
    · have hr := negotiate_ok env.dlVideo h (all_video_resources c.txt c.details)
        (synced_video c.syncMeta c.files) 0
      simp only [maybe_download_video, if_neg hopt, hao, Bool.false_eq_true,
        if_false]
      cases hneg : negotiate (synced_video c.syncMeta c.files) env.dlVideo
          (all_video_resources c.txt c.details) 0 <;> simp
      rw [hneg] at hr
      simp [NegRes.isRaised] at hr

theorem maybe_download_video_finish (env : Env) (c : Context) :
    finishCount (maybe_download_video env c).events = 0 := by
  by_cases hopt : c.options.videoOptions = false
  · simp [maybe_download_video, hopt, finishCount]
  · by_cases hao : c.txt.metaTags.audioOnly
    · simp [maybe_download_video, hopt, hao, finishCount]
    · simp only [maybe_download_video, if_neg hopt, hao, Bool.false_eq_true,
        if_false]
      cases negotiate (synced_video c.syncMeta c.files) env.dlVideo
          (all_video_resources c.txt c.details) 0 <;>
        exact finishCount_map_none Event.dlVideo (fun _ => rfl) _

theorem maybe_download_cover_raised (env : Env) (c : Context)
    (h : ∀ k u, ∃ v, env.dlImage k u = Except.ok v) :
    (maybe_download_cover env c).raised = false := by
  by_cases hopt : c.options.cover = false
  · simp [maybe_download_cover, hopt]
  · simp only [maybe_download_cover, if_neg hopt]
    cases cover_url c.txt c.details with
    | none => rfl
    | some url =>
      simp only
      cases hre : (if c.syncMeta.metaTags.cover = c.txt.metaTags.cover then
          synced_cover c.syncMeta c.files else none) with
      | some m => simp
      | none =>
        simp only
        obtain ⟨v, hv⟩ := h ImageKind.cover url
        rw [hv]
        cases v <;> simp

theorem maybe_download_cover_finish (env : Env) (c : Context) :
    finishCount (maybe_download_cover env c).events = 0 := by
  by_cases hopt : c.options.cover = false
  · simp [maybe_download_cover, hopt, finishCount]
  · simp only [maybe_download_cover, if_neg hopt]
    cases cover_url c.txt c.details with
    | none => rfl
    | some url =>
      simp only
      cases (if c.syncMeta.metaTags.cover = c.txt.metaTags.cover then
          synced_cover c.syncMeta c.files else none) with
      | some m => rfl
      | none =>
        simp only
        cases env.dlImage ImageKind.cover url with
        | error e => rfl
        | ok v => cases v <;> rfl

theorem maybe_download_background_raised (env : Env) (c : Context)
    (h : ∀ k u, ∃ v, env.dlImage k u = Except.ok v) :
    (maybe_download_background env c).raised = false := by
  by_cases hopt : c.options.backgroundOptions = false
  · simp [maybe_download_background, hopt]
  · by_cases hpol : c.options.downloadBackground c.headers.video.isSome = false
    · simp [maybe_download_background, hopt, hpol]
    · simp only [maybe_download_background, if_neg hopt, if_neg hpol]
      cases background_url c.txt with
      | none => rfl
      | some url =>
        simp only
        cases (if c.syncMeta.metaTags.background = c.txt.metaTags.background then
            synced_background c.syncMeta c.files else none) with
        | some m => simp
        | none =>
          simp only
          obtain ⟨v, hv⟩ := h ImageKind.background url
          rw [hv]
          cases v <;> simp

theorem maybe_download_background_finish (env : Env) (c : Context) :
    finishCount (maybe_download_background env c).events = 0 := by
  by_cases hopt : c.options.backgroundOptions = false
  · simp [maybe_download_background, hopt, finishCount]
  · by_cases hpol : c.options.downloadBackground c.headers.video.isSome = false
    · simp [maybe_download_background, hopt, hpol, finishCount]
    · simp only [maybe_download_background, if_neg hopt, if_neg hpol]
      cases background_url c.txt with
      | none => rfl
      | some url =>
        simp only
        cases (if c.syncMeta.metaTags.background = c.txt.metaTags.background then
            synced_background c.syncMeta c.files else none) with
        | some m => rfl
        | none =>
          simp only
          cases env.dlImage ImageKind.background url with
          | error e => rfl
          | ok v => cases v <;> rfl

theorem maybe_write_txt_raised (c : Context) :
    (maybe_write_txt c).raised = false := by
  by_cases hopt : c.options.txtOptions = false <;> simp [maybe_write_txt, hopt]

theorem maybe_write_txt_finish (c : Context) :
    finishCount (maybe_write_txt c).events = 0 := by
  by_cases hopt : c.options.txtOptions = false <;>
    simp [maybe_write_txt, hopt, finishCount, Event.isFinish]

theorem write_sync_meta_raised (c : Context) :
    (write_sync_meta c).raised = false := rfl

theorem write_sync_meta_finish (c : Context) :
    finishCount (write_sync_meta c).events = 0 := rfl

theorem maybe_write_audio_tags_raised (env : Env) (c : Context)
    (hl : ∀ s, ∃ v, env.lang s = Except.ok v)
    (hs : env.saveTags = Except.ok ()) :
    (maybe_write_audio_tags env c).raised = false := by
  by_cases hopt : c.options.audioOptions = false
  · simp [maybe_write_audio_tags, hopt]
  · simp only [maybe_write_audio_tags, if_neg hopt]
    cases c.syncMeta.audio with
    | none => rfl
    | some m =>
      simp only
      by_cases h4 : m.fname.ext = "m4a"
      · simp [h4, hs]
      · by_cases h3 : m.fname.ext = "mp3"
        · obtain ⟨v, hv⟩ := hl c.txt.language
          simp [h4, h3, hv, hs]
        · simp [h4, h3]

theorem maybe_write_audio_tags_finish (env : Env) (c : Context) :
    finishCount (maybe_write_audio_tags env c).events = 0 := by
  by_cases hopt : c.options.audioOptions = false
  · simp [maybe_write_audio_tags, hopt, finishCount]
  · simp only [maybe_write_audio_tags, if_neg hopt]
    cases c.syncMeta.audio with
    | none => rfl
    | some m =>
      simp only
      by_cases h4 : m.fname.ext = "m4a"
      · simp only [h4, if_true]
        cases env.saveTags <;> rfl
      · by_cases h3 : m.fname.ext = "mp3"
        · simp only [h4, if_false, h3, if_true]
          cases env.lang c.txt.language with
          | error e => rfl
          | ok v => cases env.saveTags <;> rfl
        · simp [h4, h3, finishCount]

theorem thenStep_raised (s : StepOut) (f : Context → StepOut)
    (h1 : s.raised = false) (h2 : (f s.ctx).raised = false) :
    (thenStep s f).raised = false := by
  simp [thenStep, h1, h2]

theorem thenStep_finish (s : StepOut) (f : Context → StepOut)
    (h1 : s.raised = false) (h2 : finishCount s.events = 0)
    (h3 : ∀ c, finishCount (f c).events = 0) :
    finishCount (thenStep s f).events = 0 := by
  simp [thenStep, h1, finishCount_append, h2, h3]

/-- With every oracle operation completing normally, the step chain does not
raise. -/
theorem runSteps_raised (env : Env) (c : Context)
    (hA : ∀ r, ∃ v, env.dlAudio r = Except.ok v)
    (hV : ∀ r, ∃ v, env.dlVideo r = Except.ok v)
    (hI : ∀ k u, ∃ v, env.dlImage k u = Except.ok v)
    (hL : ∀ s, ∃ v, env.lang s = Except.ok v)
    (hS : env.saveTags = Except.ok ()) :
    (runSteps env c).raised = false := by
  unfold runSteps
  apply thenStep_raised
  · apply thenStep_raised
    · apply thenStep_raised
      · apply thenStep_raised
        · apply thenStep_raised
          · apply thenStep_raised
            · exact maybe_download_audio_raised env c hA
            · exact maybe_download_video_raised env _ hV
          · exact maybe_download_cover_raised env _ hI
        · exact maybe_download_background_raised env _ hI
      · exact maybe_write_txt_raised _
    · exact write_sync_meta_raised _
  · exact maybe_write_audio_tags_raised env _ hL hS

/-- The step chain never invokes on_finish. -/
theorem runSteps_finish (env : Env) (c : Context)
    (hA : ∀ r, ∃ v, env.dlAudio r = Except.ok v)
    (hV : ∀ r, ∃ v, env.dlVideo r = Except.ok v)
    (hI : ∀ k u, ∃ v, env.dlImage k u = Except.ok v) :
    finishCount (runSteps env c).events = 0 := by
  unfold runSteps
  apply thenStep_finish
  · apply thenStep_raised
    · apply thenStep_raised
      · apply thenStep_raised
        · apply thenStep_raised
          · apply thenStep_raised
            · exact maybe_download_audio_raised env c hA
            · exact maybe_download_video_raised env _ hV
          · exact maybe_download_cover_raised env _ hI
        · exact maybe_download_background_raised env _ hI
      · exact maybe_write_txt_raised _
    · exact write_sync_meta_raised _
  · apply thenStep_finish
    · apply thenStep_raised
      · apply thenStep_raised
        · apply thenStep_raised
          · apply thenStep_raised
            · exact maybe_download_audio_raised env c hA
            · exact maybe_download_video_raised env _ hV
          · exact maybe_download_cover_raised env _ hI
        · exact maybe_download_background_raised env _ hI
      · exact maybe_write_txt_raised _
    · apply thenStep_finish
      · apply thenStep_raised
        · apply thenStep_raised
          · apply thenStep_raised
            · exact maybe_download_audio_raised env c hA
            · exact maybe_download_video_raised env _ hV
          · exact maybe_download_cover_raised env _ hI
        · exact maybe_download_background_raised env _ hI
      · apply thenStep_finish
        · apply thenStep_raised
          · apply thenStep_raised
            · exact maybe_download_audio_raised env c hA
            · exact maybe_download_video_raised env _ hV
          · exact maybe_download_cover_raised env _ hI
        · apply thenStep_finish
          · apply thenStep_raised
            · exact maybe_download_audio_raised env c hA
            · exact maybe_download_video_raised env _ hV
          · apply thenStep_finish
            · exact maybe_download_audio_raised env c hA
            · exact maybe_download_audio_finish env c
            · exact maybe_download_video_finish env
          · exact maybe_download_cover_finish env
        · exact maybe_download_background_finish env
      · exact maybe_write_txt_finish
    · exact write_sync_meta_finish
  · exact maybe_write_audio_tags_finish env

/-! ### ensure_correct_paths never invokes on_finish -/

theorem isFinish_renameDir (a b : DirName) : (Event.renameDir a b).isFinish = false := rfl

theorem fixOne_finish (stem : String) (files : List (FName × Nat)) (m : FileMeta) :
    finishCount (fixOne stem files m).2.2 = 0 := by
  dsimp only [fixOne]
  split
  · rfl
  · rfl

theorem fixOpt_finish (stem : String) (files : List (FName × Nat))
    (om : Option FileMeta) :
    finishCount (fixOpt stem files om).2.2 = 0 := by
  cases om with
  | none => rfl
  | some m => simp only [fixOpt]; exact fixOne_finish stem files m

theorem fix_resource_paths_finish (stem : String) (files : List (FName × Nat))
    (sm : SyncMeta) :
    finishCount (fix_resource_paths stem files sm).2.2 = 0 := by
  simp only [fix_resource_paths]
  rw [finishCount_append, finishCount_append, finishCount_append, finishCount_append]
  simp [fixOpt_finish]

theorem ensure_correct_paths_finish (stem : String) (fs : FS) (sm : SyncMeta) :
    finishCount (ensure_correct_paths stem fs sm).2.2 = 0 := by
  dsimp only [ensure_correct_paths]
  split
  · rfl
  · rw [finishCount_cons_not (isFinish_renameDir _ _)]
    exact fix_resource_paths_finish stem fs.files sm

/-- All oracle operations complete normally (no Python exception). -/
def EnvOk (env : Env) : Prop :=
  (∃ v, env.details = Except.ok v) ∧ (∃ v, env.notes = Except.ok v) ∧
  env.mkdirRes = Except.ok () ∧
  (∀ r, ∃ v, env.dlAudio r = Except.ok v) ∧
  (∀ r, ∃ v, env.dlVideo r = Except.ok v) ∧
  (∀ k u, ∃ v, env.dlImage k u = Except.ok v) ∧
  (∀ s, ∃ v, env.lang s = Except.ok v) ∧
  env.saveTags = Except.ok ()

theorem runCore_ok (env : Env) (opt : Options) (info : DownloadInfo) (w : World)
    (details : SongDetails) (txt : SongTxt)
    (hm : env.mkdirRes = Except.ok ())
    (hA : ∀ r, ∃ v, env.dlAudio r = Except.ok v)
    (hV : ∀ r, ∃ v, env.dlVideo r = Except.ok v)
    (hI : ∀ k u, ∃ v, env.dlImage k u = Except.ok v)
    (hL : ∀ s, ∃ v, env.lang s = Except.ok v)
    (hS : env.saveTags = Except.ok ()) :
    finishCount (runCore env opt info w details txt).events = 1 ∧
    (runCore env opt info w details txt).raised = false := by
  simp only [runCore, hm]
  rw [runSteps_raised env _ hA hV hI hL hS]
  simp only [Bool.false_eq_true, if_false]
  constructor
  · rw [finishCount_append, finishCount_append, finishCount_append,
      finishCount_append]
    rw [ensure_correct_paths_finish, runSteps_finish env _ hA hV hI]
    rfl
  · trivial


/-! ### Claim C1 -/

/-- Claim C1, amended: the worker task invokes on_finish exactly once with a
DownloadResult provided no external operation (network fetch, mkdir,
resource download, language lookup, tag save) raises an exception;
SongLoader.run installs no exception handler, so an external call that does
raise escapes the task boundary and on_finish is never invoked. -/
theorem c1_on_finish_once_unless_raise (env : Env) (opt : Options)
    (info : DownloadInfo) (w : World) :
    (EnvOk env →
      finishCount (runLoader env opt info w).events = 1 ∧
      (runLoader env opt info w).raised = false) ∧
    (env.details = Except.error () →
      finishCount (runLoader env opt info w).events = 0 ∧
      (runLoader env opt info w).raised = true) := by
  constructor
  · rintro ⟨⟨dv, hd⟩, ⟨nv, hn⟩, hm, hA, hV, hI, hL, hS⟩
    cases dv with
    | none => simp only [runLoader, hd]; exact ⟨rfl, trivial⟩
    | some details =>
      cases nv with
      | none => simp only [runLoader, hd, hn]; exact ⟨rfl, trivial⟩
      | some txt =>
        simp only [runLoader, hd, hn]
        exact runCore_ok env opt info w details txt hm hA hV hI hL hS
  · intro h
    simp only [runLoader, h]
    exact ⟨rfl, trivial⟩

/-- Claim C1 counterexample: with an environment whose details fetch raises
(the song_loader has no try/except), the exception escapes the task and
on_finish is never invoked — the claim's exactly-once on_finish and
exception containment both fail. -/
theorem c1_exception_escapes_counterexample :
    (runLoader env_details_raise opt_all info_demo world_empty).raised = true ∧
    finishCount (runLoader env_details_raise opt_all info_demo world_empty).events = 0 :=
  ⟨rfl, rfl⟩

/-- Witness for the amended claim C1 at concrete inputs. -/
theorem c1_on_finish_once_witness :
    (finishCount (runLoader env_all_ok opt_all info_demo world_empty).events = 1 ∧
      (runLoader env_all_ok opt_all info_demo world_empty).raised = false) ∧
    (finishCount (runLoader env_details_raise opt_all info_demo world_empty).events = 0 ∧
      (runLoader env_details_raise opt_all info_demo world_empty).raised = true) :=
  ⟨(c1_on_finish_once_unless_raise env_all_ok opt_all info_demo world_empty).1
      ⟨⟨_, rfl⟩, ⟨_, rfl⟩, rfl, fun _ => ⟨none, rfl⟩, fun _ => ⟨none, rfl⟩,
        fun _ _ => ⟨none, rfl⟩, fun _ => ⟨"eng", rfl⟩, rfl⟩,
    (c1_on_finish_once_unless_raise env_details_raise opt_all info_demo world_empty).2 rfl⟩

/-! ### Claim C6 -/

/-- Claim C6 (confirmed): when the details fetch reports the song absent, or
the notes text cannot be fetched (unauthenticated), the run short-circuits
the remaining states: the trace is exactly on_start followed by one
on_finish carrying no file summary, and the world is unchanged, so no song
directory is created on disk. -/
theorem c6_short_circuit (env : Env) (opt : Options) (info : DownloadInfo) (w : World) :
    (env.details = Except.ok none →
      runLoader env opt info w =
        ⟨[Event.onStart info.songId, Event.onFinish ⟨info.songId, none⟩], w, false⟩) ∧
    (∀ d, env.details = Except.ok (some d) → env.notes = Except.ok none →
      runLoader env opt info w =
        ⟨[Event.onStart info.songId, Event.onFinish ⟨info.songId, none⟩], w, false⟩) := by
  constructor
  · intro h
    simp only [runLoader, h]
    rfl
  · intro d h1 h2
    simp only [runLoader, h1, h2]
    rfl

/-- Witness for claim C6 at concrete inputs: both the song-absent case and
the not-logged-in case. -/
theorem c6_short_circuit_witness :
    runLoader env_absent opt_all info_demo world_empty =
      ⟨[Event.onStart 1, Event.onFinish ⟨1, none⟩], world_empty, false⟩ ∧
    runLoader env_no_notes opt_all info_demo world_empty =
      ⟨[Event.onStart 1, Event.onFinish ⟨1, none⟩], world_empty, false⟩ :=
  ⟨(c6_short_circuit env_absent opt_all info_demo world_empty).1 rfl,
    (c6_short_circuit env_no_notes opt_all info_demo world_empty).2 ⟨none, []⟩ rfl rfl⟩


/-! ### Claim C4 -/

theorem maybe_download_audio_events_len (env : Env) (c : Context) :
    (maybe_download_audio env c).events.length ≤ 10 := by
  by_cases hopt : c.options.audioOptions = false
  · simp [maybe_download_audio, hopt]
  · simp only [maybe_download_audio, if_neg hopt]
    have hlen := negotiate_attempts_len (synced_audio c.syncMeta c.files) env.dlAudio
      (all_audio_resources c.txt c.details) 0 (by omega)
    cases hneg : negotiate (synced_audio c.syncMeta c.files) env.dlAudio
        (all_audio_resources c.txt c.details) 0 <;>
      (rw [hneg] at hlen; simp [NegRes.attempts] at hlen;
        simp [List.length_map]; omega)

theorem maybe_download_video_events_len (env : Env) (c : Context) :
    (maybe_download_video env c).events.length ≤ 10 := by
  by_cases hopt : c.options.videoOptions = false
  · simp [maybe_download_video, hopt]
  · by_cases hao : c.txt.metaTags.audioOnly
    · simp [maybe_download_video, hopt, hao]
    · simp only [maybe_download_video, if_neg hopt, hao, Bool.false_eq_true, if_false]
      have hlen := negotiate_attempts_len (synced_video c.syncMeta c.files) env.dlVideo
        (all_video_resources c.txt c.details) 0 (by omega)
      cases hneg : negotiate (synced_video c.syncMeta c.files) env.dlVideo
          (all_video_resources c.txt c.details) 0 <;>
        (rw [hneg] at hlen; simp [NegRes.attempts] at hlen;
          simp [List.length_map]; omega)

/-- Claim C4 (confirmed): for every audio or video slot at most 10
candidates are passed to the external download primitive, and in the
concrete fifteen-candidate scenario where every download fails and none
matches the recorded resource, exactly the first ten are attempted. -/
theorem c4_bounded_attempts :
    (∀ (env : Env) (c : Context),
      (maybe_download_audio env c).events.length ≤ 10 ∧
      (maybe_download_video env c).events.length ≤ 10) ∧
    (maybe_download_audio env_all_ok ctx_c4).events =
      [Event.dlAudio "r00", Event.dlAudio "r01", Event.dlAudio "r02",
        Event.dlAudio "r03", Event.dlAudio "r04", Event.dlAudio "r05",
        Event.dlAudio "r06", Event.dlAudio "r07", Event.dlAudio "r08",
        Event.dlAudio "r09"] :=
  ⟨fun env c => ⟨maybe_download_audio_events_len env c,
    maybe_download_video_events_len env c⟩, rfl⟩

/-! ### Claim C5 -/

/-- Claim C5 (confirmed): with candidates c1, c2, c3 where c1 and c2 fail
and c3 succeeds and no recorded descriptor matches, the walk attempts
exactly c1, c2, c3 in order, stops at the first success, and the descriptor
recorded into SyncMeta carries source identifier c3 — stated generically
over the shared candidate walk, and concretely for both the audio and the
video slot. -/
theorem c5_fallback_order :
    (∀ (dl : String → Except Unit (Option String)) (c1 c2 c3 ext : String),
      dl c1 = Except.ok none → dl c2 = Except.ok none →
      dl c3 = Except.ok (some ext) →
      negotiate none dl [c1, c2, c3] 0 = .success c3 ext [c1, c2, c3]) ∧
    ((maybe_download_audio env_c5 ctx_c5a).events =
        [Event.dlAudio "c1", Event.dlAudio "c2", Event.dlAudio "c3"] ∧
      (maybe_download_audio env_c5 ctx_c5a).ctx.syncMeta.audio =
        some ⟨⟨"s", "mp3"⟩, "c3"⟩) ∧
    ((maybe_download_video env_c5 ctx_c5v).events =
        [Event.dlVideo "c1", Event.dlVideo "c2", Event.dlVideo "c3"] ∧
      (maybe_download_video env_c5 ctx_c5v).ctx.syncMeta.video =
        some ⟨⟨"s", "mp4"⟩, "c3"⟩) := by
  refine ⟨?_, ⟨rfl, rfl⟩, ⟨rfl, rfl⟩⟩
  intro dl c1 c2 c3 ext h1 h2 h3
  simp [negotiate, h1, h2, h3, NegRes.addAttempt]

/-- Witness for claim C5 discharging the generic part's hypotheses at the
concrete failing/succeeding oracle. -/
theorem c5_fallback_order_witness :
    negotiate none env_c5.dlAudio ["c1", "c2", "c3"] 0 =
      .success "c3" "mp3" ["c1", "c2", "c3"] :=
  c5_fallback_order.1 env_c5.dlAudio "c1" "c2" "c3" "mp3" rfl rfl rfl

/-! ### Claim C3 -/

/-- Claim C3 counterexample: the recorded audio resource c1 sits at
candidate position 1; the download of the position-0 candidate c0 fails,
and contrary to the claim the recorded descriptor IS reused — the trace
shows a single attempt of c0, no download of c1, the SyncMeta descriptor
unchanged, and the recorded filename reinstated in the mp3 header. -/
theorem c3_reuse_at_pos_one_counterexample :
    (maybe_download_audio env_all_ok ctx_c3).events = [Event.dlAudio "c0"] ∧
    (maybe_download_audio env_all_ok ctx_c3).ctx.syncMeta = ctx_c3.syncMeta ∧
    (maybe_download_audio env_all_ok ctx_c3).ctx.headers.mp3 = some "s.mp3" :=
  ⟨rfl, rfl, rfl⟩

/-- Claim C3, amended: in audio and video negotiation, a previously-synced
descriptor is reused whenever its resource identifier equals the current
candidate at ANY position reached during the scan (all earlier candidates
are attempted first and must have failed); only then is the download
skipped and the recorded filename reinstated. -/
theorem c3_reuse_at_any_reached_position :
    (∀ (env : Env) (c : Context) (m : FileMeta) (pre rest : List String),
      c.options.audioOptions = true →
      synced_audio c.syncMeta c.files = some m →
      all_audio_resources c.txt c.details = pre ++ m.resource :: rest →
      (∀ r ∈ pre, ¬ r = m.resource) →
      (∀ r ∈ pre, env.dlAudio r = Except.ok none) →
      pre.length ≤ 10 →
      (maybe_download_audio env c).events = pre.map Event.dlAudio ∧
      (maybe_download_audio env c).ctx.syncMeta = c.syncMeta ∧
      (maybe_download_audio env c).ctx.headers.mp3 = some m.fname.render) ∧
    (∀ (env : Env) (c : Context) (m : FileMeta) (pre rest : List String),
      c.options.videoOptions = true →
      c.txt.metaTags.audioOnly = false →
      synced_video c.syncMeta c.files = some m →
      all_video_resources c.txt c.details = pre ++ m.resource :: rest →
      (∀ r ∈ pre, ¬ r = m.resource) →
      (∀ r ∈ pre, env.dlVideo r = Except.ok none) →
      pre.length ≤ 10 →
      (maybe_download_video env c).events = pre.map Event.dlVideo ∧
      (maybe_download_video env c).ctx.syncMeta = c.syncMeta ∧
      (maybe_download_video env c).ctx.headers.video = some m.fname.render) := by
  constructor
  · intro env c m pre rest hopt hm hc hne hfail hlen
    have hneg := negotiate_reuse_later m env.dlAudio pre rest 0 hne hfail (by omega)
    simp only [maybe_download_audio, hopt, Bool.true_eq_false, if_false, hm, hc, hneg]
    refine ⟨?_, ?_, ?_⟩ <;> first | rfl | trivial
  · intro env c m pre rest hopt hao hm hc hne hfail hlen
    have hneg := negotiate_reuse_later m env.dlVideo pre rest 0 hne hfail (by omega)
    simp only [maybe_download_video, hopt, Bool.true_eq_false, if_false, hao,
      Bool.false_eq_true, hm, hc, hneg]
    refine ⟨?_, ?_, ?_⟩ <;> first | rfl | trivial

/-- Witness for the amended claim C3 at concrete inputs: reuse at position 1
for both the audio and video slot. -/
theorem c3_reuse_witness :
    ((maybe_download_audio env_all_ok ctx_c3).events = [Event.dlAudio "c0"] ∧
      (maybe_download_audio env_all_ok ctx_c3).ctx.syncMeta = ctx_c3.syncMeta ∧
      (maybe_download_audio env_all_ok ctx_c3).ctx.headers.mp3 = some "s.mp3") ∧
    ((maybe_download_video env_all_ok ctx_c3v).events = [Event.dlVideo "c0"] ∧
      (maybe_download_video env_all_ok ctx_c3v).ctx.syncMeta = ctx_c3v.syncMeta ∧
      (maybe_download_video env_all_ok ctx_c3v).ctx.headers.video = some "s.mp4") :=
  ⟨c3_reuse_at_any_reached_position.1 env_all_ok ctx_c3 ⟨⟨"s", "mp3"⟩, "c1"⟩
      ["c0"] [] rfl rfl rfl (by decide) (fun _ _ => rfl) (by decide),
    c3_reuse_at_any_reached_position.2 env_all_ok ctx_c3v ⟨⟨"s", "mp4"⟩, "c1"⟩
      ["c0"] [] rfl rfl rfl rfl (by decide) (fun _ _ => rfl) (by decide)⟩

/-! ### Claim C2 -/

/-- Claim C2 counterexample: the first run records the audio resource c1,
which sits at candidate position 1 (the position-0 candidate c0 failed);
re-running with unchanged remote details, notes and local files performs
one further call to the audio download primitive (re-attempting c0) instead
of the claimed zero. -/
theorem c2_second_run_downloads_counterexample :
    ((runLoader env_c2 opt_audio info_c2 world_empty).world.dirs.map
        (fun sd => sd.metaFile.map (fun m => m.audio))) =
      [some (some ⟨⟨"s", "mp3"⟩, "c1"⟩)] ∧
    downloadCallCount (runLoader env_c2 opt_audio info_c2
        (runLoader env_c2 opt_audio info_c2 world_empty).world).events = 1 :=
  ⟨rfl, rfl⟩

/-- Claim C2, amended: a slot performs zero download calls on a re-run
exactly under these conditions — for audio and video, the recorded
descriptor's file is present and its resource equals the first candidate
considered; for cover and background, the stored fingerprint equals the
current meta tag and the recorded file is present.  A recorded audio or
video resource sitting at a later candidate position causes the earlier
candidates to be re-attempted. -/
theorem c2_zero_downloads_on_reuse :
    (∀ (env : Env) (c : Context) (m : FileMeta) (rest : List String),
      synced_audio c.syncMeta c.files = some m →
      all_audio_resources c.txt c.details = m.resource :: rest →
      (maybe_download_audio env c).events = [] ∧
      (maybe_download_audio env c).ctx.syncMeta = c.syncMeta) ∧
    (∀ (env : Env) (c : Context) (m : FileMeta) (rest : List String),
      synced_video c.syncMeta c.files = some m →
      all_video_resources c.txt c.details = m.resource :: rest →
      (maybe_download_video env c).events = [] ∧
      (maybe_download_video env c).ctx.syncMeta = c.syncMeta) ∧
    (∀ (env : Env) (c : Context) (m : FileMeta),
      c.syncMeta.metaTags.cover = c.txt.metaTags.cover →
      synced_cover c.syncMeta c.files = some m →
      (maybe_download_cover env c).events = [] ∧
      (maybe_download_cover env c).ctx.syncMeta = c.syncMeta) ∧
    (∀ (env : Env) (c : Context) (m : FileMeta),
      c.syncMeta.metaTags.background = c.txt.metaTags.background →
      synced_background c.syncMeta c.files = some m →
      (maybe_download_background env c).events = [] ∧
      (maybe_download_background env c).ctx.syncMeta = c.syncMeta) := by
  refine ⟨?_, ?_, ?_, ?_⟩
  · intro env c m rest hm hc
    by_cases hopt : c.options.audioOptions = false
    · simp [maybe_download_audio, hopt]
    · simp only [maybe_download_audio, if_neg hopt, hm, hc,
        negotiate_reuse_head]
      refine ⟨?_, ?_⟩ <;> first | rfl | trivial
  · intro env c m rest hm hc
    by_cases hopt : c.options.videoOptions = false
    · simp [maybe_download_video, hopt]
    · by_cases hao : c.txt.metaTags.audioOnly
      · simp [maybe_download_video, hopt, hao]
      · simp only [maybe_download_video, if_neg hopt, hao, Bool.false_eq_true,
          if_false, hm, hc, negotiate_reuse_head]
        refine ⟨?_, ?_⟩ <;> first | rfl | trivial
  · intro env c m htag hm
    by_cases hopt : c.options.cover = false
    · simp [maybe_download_cover, hopt]
    · simp only [maybe_download_cover, if_neg hopt]
      cases cover_url c.txt c.details with
      | none => exact ⟨rfl, rfl⟩
      | some url =>
        simp only [if_pos htag, hm]
        refine ⟨?_, ?_⟩ <;> first | rfl | trivial
  · intro env c m htag hm
    by_cases hopt : c.options.backgroundOptions = false
    · simp [maybe_download_background, hopt]
    · by_cases hpol : c.options.downloadBackground c.headers.video.isSome = false
      · simp [maybe_download_background, hopt, hpol]
      · simp only [maybe_download_background, if_neg hopt, if_neg hpol]
        cases background_url c.txt with
        | none => exact ⟨rfl, rfl⟩
        | some url =>
          simp only [if_pos htag, hm]
          refine ⟨?_, ?_⟩ <;> first | rfl | trivial

/-- Witness for the amended claim C2: a context in which every slot reuses
its recorded descriptor and performs zero download calls. -/
theorem c2_zero_downloads_witness :
    ((maybe_download_audio env_all_ok ctx_c2w).events = [] ∧
      (maybe_download_audio env_all_ok ctx_c2w).ctx.syncMeta = ctx_c2w.syncMeta) ∧
    ((maybe_download_video env_all_ok ctx_c2w).events = [] ∧
      (maybe_download_video env_all_ok ctx_c2w).ctx.syncMeta = ctx_c2w.syncMeta) ∧
    ((maybe_download_cover env_all_ok ctx_c2w).events = [] ∧
      (maybe_download_cover env_all_ok ctx_c2w).ctx.syncMeta = ctx_c2w.syncMeta) ∧
    ((maybe_download_background env_all_ok ctx_c2w).events = [] ∧
      (maybe_download_background env_all_ok ctx_c2w).ctx.syncMeta = ctx_c2w.syncMeta) :=
  ⟨c2_zero_downloads_on_reuse.1 env_all_ok ctx_c2w ⟨⟨"s", "mp3"⟩, "c0"⟩
      ["v0"] rfl rfl,
    (c2_zero_downloads_on_reuse.2.1 env_all_ok ctx_c2w ⟨⟨"s", "mp4"⟩, "v0"⟩
      [] rfl rfl),
    (c2_zero_downloads_on_reuse.2.2.1 env_all_ok ctx_c2w ⟨⟨"s", "jpg"⟩, "u"⟩
      rfl rfl),
    (c2_zero_downloads_on_reuse.2.2.2 env_all_ok ctx_c2w ⟨⟨"s", "png"⟩, "b"⟩
      rfl rfl)⟩


/-! ### Claim C8 -/

theorem maybe_download_audio_attempt_ne (env : Env) (c : Context) (m : FileMeta)
    (r : String) (hm : synced_audio c.syncMeta c.files = some m)
    (hmem : Event.dlAudio r ∈ (maybe_download_audio env c).events) :
    ¬ r = m.resource := by
  by_cases hopt : c.options.audioOptions = false
  · simp [maybe_download_audio, hopt] at hmem
  · simp only [maybe_download_audio, if_neg hopt, hm] at hmem
    have key : r ∈ (negotiate (some m) env.dlAudio
        (all_audio_resources c.txt c.details) 0).attempts := by
      cases hneg : negotiate (some m) env.dlAudio
          (all_audio_resources c.txt c.details) 0 <;>
        (rw [hneg] at hmem; simp [NegRes.attempts] at hmem ⊢ <;> simpa using hmem)
    exact negotiate_attempts_ne env.dlAudio m _ 0 r key

theorem maybe_download_video_attempt_ne (env : Env) (c : Context) (m : FileMeta)
    (r : String) (hm : synced_video c.syncMeta c.files = some m)
    (hmem : Event.dlVideo r ∈ (maybe_download_video env c).events) :
    ¬ r = m.resource := by
  by_cases hopt : c.options.videoOptions = false
  · simp [maybe_download_video, hopt] at hmem
  · by_cases hao : c.txt.metaTags.audioOnly
    · simp [maybe_download_video, hopt, hao] at hmem
    · simp only [maybe_download_video, if_neg hopt, hao, Bool.false_eq_true,
        if_false, hm] at hmem
      have key : r ∈ (negotiate (some m) env.dlVideo
          (all_video_resources c.txt c.details) 0).attempts := by
        cases hneg : negotiate (some m) env.dlVideo
            (all_video_resources c.txt c.details) 0 <;>
          (rw [hneg] at hmem; simp [NegRes.attempts] at hmem ⊢ <;> simpa using hmem)
      exact negotiate_attempts_ne env.dlVideo m _ 0 r key

theorem maybe_download_cover_reuse_events (env : Env) (c : Context) (m : FileMeta)
    (htag : c.syncMeta.metaTags.cover = c.txt.metaTags.cover)
    (hm : synced_cover c.syncMeta c.files = some m) :
    (maybe_download_cover env c).events = [] := by
  by_cases hopt : c.options.cover = false
  · simp [maybe_download_cover, hopt]
  · simp only [maybe_download_cover, if_neg hopt]
    cases cover_url c.txt c.details with
    | none => rfl
    | some url => simp only [if_pos htag, hm]

theorem maybe_download_background_reuse_events (env : Env) (c : Context)
    (m : FileMeta)
    (htag : c.syncMeta.metaTags.background = c.txt.metaTags.background)
    (hm : synced_background c.syncMeta c.files = some m) :
    (maybe_download_background env c).events = [] := by
  by_cases hopt : c.options.backgroundOptions = false
  · simp [maybe_download_background, hopt]
  · by_cases hpol : c.options.downloadBackground c.headers.video.isSome = false
    · simp [maybe_download_background, hopt, hpol]
    · simp only [maybe_download_background, if_neg hopt, if_neg hpol]
      cases background_url c.txt with
      | none => rfl
      | some url => simp only [if_pos htag, hm]

/-- Claim C8, amended: the audio and video slots satisfy the invariant —
with a recorded descriptor whose file is present, every resource passed to
the download primitive differs from the recorded resource identifier.  The
cover and background slots however are guarded by the stored meta-tag
fingerprint, not by the recorded resource identifier: they skip the
download when the fingerprint is unchanged and the recorded file is
present, and re-download (overwriting the file) whenever the stored
fingerprint differs from the current tag, even if the negotiated URL equals
the recorded resource identifier. -/
theorem c8_overwrite_only_on_change :
    (∀ (env : Env) (c : Context) (m : FileMeta) (r : String),
      synced_audio c.syncMeta c.files = some m →
      Event.dlAudio r ∈ (maybe_download_audio env c).events → ¬ r = m.resource) ∧
    (∀ (env : Env) (c : Context) (m : FileMeta) (r : String),
      synced_video c.syncMeta c.files = some m →
      Event.dlVideo r ∈ (maybe_download_video env c).events → ¬ r = m.resource) ∧
    (∀ (env : Env) (c : Context) (m : FileMeta),
      c.syncMeta.metaTags.cover = c.txt.metaTags.cover →
      synced_cover c.syncMeta c.files = some m →
      (maybe_download_cover env c).events = []) ∧
    (∀ (env : Env) (c : Context) (m : FileMeta),
      c.syncMeta.metaTags.background = c.txt.metaTags.background →
      synced_background c.syncMeta c.files = some m →
      (maybe_download_background env c).events = []) :=
  ⟨maybe_download_audio_attempt_ne, maybe_download_video_attempt_ne,
    maybe_download_cover_reuse_events, maybe_download_background_reuse_events⟩

/-- Claim C8 counterexample: a reachable three-run cover scenario.  After
run 1 (cover tag u1) and run 2 (cover tag u2), the persisted SyncMeta
records the cover descriptor with resource u2 and the file is present, but
the persisted fingerprint still reads u1; run 3, with everything unchanged,
calls the image download primitive for u2 again — the slot is overwritten
although the negotiated resource identifier equals the recorded one and the
target file exists. -/
theorem c8_stale_fingerprint_counterexample :
    (c8_world2.dirs.map (fun sd => sd.metaFile.map
        (fun m => (m.metaTags.cover, m.cover)))) =
      [some (some "u1", some ⟨⟨"s", "jpg"⟩, "u2"⟩)] ∧
    (c8_world2.dirs.map (fun sd => sd.files.map Prod.fst)) = [[⟨"s", "jpg"⟩]] ∧
    Event.dlCover "u2" ∈ (runLoader env_c8_r2 opt_cover info_c8 c8_world2).events :=
  ⟨rfl, rfl, by decide⟩

/-- Witness for the amended claim C8 at concrete inputs: the audio part at a
recorded-descriptor context, and the cover part reusing without any
download call. -/
theorem c8_overwrite_only_on_change_witness :
    (¬ "c0" = "c1") ∧ (maybe_download_cover env_all_ok ctx_c2w).events = [] :=
  ⟨c8_overwrite_only_on_change.1 env_all_ok ctx_c3 ⟨⟨"s", "mp3"⟩, "c1"⟩ "c0"
      rfl (by decide),
    c8_overwrite_only_on_change.2.2.1 env_all_ok ctx_c2w ⟨⟨"s", "jpg"⟩, "u"⟩
      rfl rfl⟩


/-! ### Claim C7 -/

theorem nextUniqueDir_stem (taken : List DirName) (s : String) :
    (nextUniqueDir taken s).stem = s := by
  unfold nextUniqueDir
  split
  · split <;> rfl
  · rfl

theorem nextUniqueDir_not_mem (taken : List DirName) (s : String) :
    ¬ nextUniqueDir taken s ∈ taken := by
  unfold nextUniqueDir
  by_cases h : DirName.plain s ∈ taken
  · rw [if_pos h]
    cases hf : (List.range (taken.length + 1)).find?
        (fun k => decide (¬ DirName.suffixed s (k + 1) ∈ taken)) with
    | some k =>
      have hp := List.find?_some hf
      simpa using of_decide_eq_true hp
    | none =>
      exfalso
      have hall : ∀ k ∈ List.range (taken.length + 1),
          DirName.suffixed s (k + 1) ∈ taken := by
        intro k hk
        have hx := List.find?_eq_none.mp hf k hk
        simpa using hx
      have hsub : (List.range (taken.length + 1)).map
          (fun k => DirName.suffixed s (k + 1)) ⊆ taken := by
        intro x hx
        obtain ⟨k, hk, hke⟩ := List.mem_map.mp hx
        rw [← hke]
        exact hall k hk
      have hnd : ((List.range (taken.length + 1)).map
          (fun k => DirName.suffixed s (k + 1))).Nodup := by
        refine List.Nodup.map ?_ (List.nodup_range (taken.length + 1))
        intro a b hab
        simp at hab
        omega
      have hle := (List.subperm_of_subset hnd hsub).length_le
      simp at hle
  · rw [if_neg h]
    exact h

theorem metaEvolves_refl (stem : String) (om : Option FileMeta) :
    metaEvolves stem om om := by
  cases om with
  | none => trivial
  | some a => exact ⟨rfl, rfl, Or.inl rfl⟩

theorem map_snd_rename (a b : FName) (files : List (FName × Nat)) :
    (files.map (fun p => if p.1 = a then (b, p.2) else p)).map Prod.snd =
      files.map Prod.snd := by
  induction files with
  | nil => rfl
  | cons p t ih =>
    simp only [List.map_cons]
    by_cases h : p.1 = a
    · simp [h, ih]
    · simp [h, ih]

theorem fixOne_snd (stem : String) (files : List (FName × Nat)) (m : FileMeta) :
    (fixOne stem files m).1.map Prod.snd = files.map Prod.snd := by
  dsimp only [fixOne]
  split
  · rfl
  · exact map_snd_rename m.fname ⟨stem, m.fname.ext⟩ files

theorem fixOne_meta (stem : String) (files : List (FName × Nat)) (m : FileMeta) :
    metaEvolves stem (some m) (some (fixOne stem files m).2.1) := by
  dsimp only [fixOne]
  split
  · exact metaEvolves_refl stem (some m)
  · exact ⟨rfl, rfl, Or.inr rfl⟩

theorem fixOpt_snd (stem : String) (files : List (FName × Nat))
    (om : Option FileMeta) :
    (fixOpt stem files om).1.map Prod.snd = files.map Prod.snd := by
  cases om with
  | none => rfl
  | some m => exact fixOne_snd stem files m

theorem fixOpt_meta (stem : String) (files : List (FName × Nat))
    (om : Option FileMeta) :
    metaEvolves stem om (fixOpt stem files om).2.1 := by
  cases om with
  | none => trivial
  | some m => exact fixOne_meta stem files m

theorem fix_resource_paths_snd (stem : String) (files : List (FName × Nat))
    (sm : SyncMeta) :
    (fix_resource_paths stem files sm).1.map Prod.snd = files.map Prod.snd := by
  simp only [fix_resource_paths]
  rw [fixOpt_snd, fixOpt_snd, fixOpt_snd, fixOpt_snd, fixOpt_snd]

theorem fix_resource_paths_meta (stem : String) (files : List (FName × Nat))
    (sm : SyncMeta) :
    metaEvolves stem sm.audio (fix_resource_paths stem files sm).2.1.audio ∧
    metaEvolves stem sm.video (fix_resource_paths stem files sm).2.1.video ∧
    metaEvolves stem sm.cover (fix_resource_paths stem files sm).2.1.cover ∧
    metaEvolves stem sm.background (fix_resource_paths stem files sm).2.1.background ∧
    metaEvolves stem sm.txt (fix_resource_paths stem files sm).2.1.txt := by
  simp only [fix_resource_paths]
  exact ⟨fixOpt_meta _ _ _, fixOpt_meta _ _ _, fixOpt_meta _ _ _,
    fixOpt_meta _ _ _, fixOpt_meta _ _ _⟩

theorem fixOne_skip (stem : String) (files : List (FName × Nat)) (m : FileMeta)
    (h : m.fname = (⟨stem, m.fname.ext⟩ : FName) ∨
      (∃ p ∈ files, p.1 = (⟨stem, m.fname.ext⟩ : FName)) ∨
      ¬ ∃ p ∈ files, p.1 = m.fname) :
    fixOne stem files m = (files, m, []) := by
  dsimp only [fixOne]
  split
  · rfl
  · rename_i hcond
    exfalso
    apply hcond
    rcases h with h | h | h
    · exact Or.inl h
    · refine Or.inr (Or.inl ?_)
      rw [List.any_eq_true]
      obtain ⟨p, hp, he⟩ := h
      exact ⟨p, hp, by simp [he]⟩
    · refine Or.inr (Or.inr ?_)
      rw [Bool.eq_false_iff]
      intro hc
      rw [List.any_eq_true] at hc
      obtain ⟨p, hp, he⟩ := hc
      exact h ⟨p, hp, of_decide_eq_true he⟩

theorem fixOne_rename (stem : String) (files : List (FName × Nat)) (m : FileMeta)
    (h1 : ¬ m.fname = (⟨stem, m.fname.ext⟩ : FName))
    (h2 : ¬ ∃ p ∈ files, p.1 = (⟨stem, m.fname.ext⟩ : FName))
    (h3 : ∃ p ∈ files, p.1 = m.fname) :
    fixOne stem files m =
      (files.map (fun p =>
          if p.1 = m.fname then ((⟨stem, m.fname.ext⟩ : FName), p.2) else p),
        ⟨⟨stem, m.fname.ext⟩, m.resource⟩,
        [Event.renameFile m.fname ⟨stem, m.fname.ext⟩]) := by
  dsimp only [fixOne]
  split
  · rename_i hcond
    exfalso
    rcases hcond with hc | hc | hc
    · exact h1 hc
    · rw [List.any_eq_true] at hc
      obtain ⟨p, hp, he⟩ := hc
      exact h2 ⟨p, hp, of_decide_eq_true he⟩
    · obtain ⟨p, hp, he⟩ := h3
      have ht : files.any (fun p => decide (p.1 = m.fname)) = true :=
        List.any_eq_true.mpr ⟨p, hp, by simp [he]⟩
      rw [hc] at ht
      exact Bool.false_ne_true ht
  · rfl

/-- Claim C7 (confirmed): ensure_correct_paths is a no-op when the directory
name matches the current stem up to an optional numeric suffix; otherwise
the directory is renamed to the fresh unique name derived from the new stem
(numeric suffix appended on collision, never colliding with an existing
name), every file content is preserved, every recorded slot descriptor
keeps its resource and extension and is either retained or rebased onto the
new stem, and an individual file is renamed exactly when the names differ,
the target name does not exist and the old file exists; otherwise the old
name is retained. -/
theorem c7_rename_pass (stem : String) (fs : FS) (sm : SyncMeta) :
    (fs.dirName.stem = stem → ensure_correct_paths stem fs sm = (fs, sm, [])) ∧
    (¬ fs.dirName.stem = stem →
      (ensure_correct_paths stem fs sm).1.dirName = nextUniqueDir fs.others stem) ∧
    ((nextUniqueDir fs.others stem).stem = stem ∧
      ¬ nextUniqueDir fs.others stem ∈ fs.others) ∧
    ((ensure_correct_paths stem fs sm).1.files.map Prod.snd =
      fs.files.map Prod.snd) ∧
    (metaEvolves stem sm.audio (ensure_correct_paths stem fs sm).2.1.audio ∧
      metaEvolves stem sm.video (ensure_correct_paths stem fs sm).2.1.video ∧
      metaEvolves stem sm.cover (ensure_correct_paths stem fs sm).2.1.cover ∧
      metaEvolves stem sm.background
        (ensure_correct_paths stem fs sm).2.1.background ∧
      metaEvolves stem sm.txt (ensure_correct_paths stem fs sm).2.1.txt) ∧
    (∀ (files : List (FName × Nat)) (m : FileMeta),
      ((m.fname = (⟨stem, m.fname.ext⟩ : FName) ∨
          (∃ p ∈ files, p.1 = (⟨stem, m.fname.ext⟩ : FName)) ∨
          ¬ ∃ p ∈ files, p.1 = m.fname) →
        fixOne stem files m = (files, m, [])) ∧
      (¬ m.fname = (⟨stem, m.fname.ext⟩ : FName) →
        ¬ (∃ p ∈ files, p.1 = (⟨stem, m.fname.ext⟩ : FName)) →
        (∃ p ∈ files, p.1 = m.fname) →
        fixOne stem files m =
          (files.map (fun p =>
              if p.1 = m.fname then ((⟨stem, m.fname.ext⟩ : FName), p.2) else p),
            ⟨⟨stem, m.fname.ext⟩, m.resource⟩,
            [Event.renameFile m.fname ⟨stem, m.fname.ext⟩]))) := by
  refine ⟨?_, ?_, ⟨nextUniqueDir_stem _ _, nextUniqueDir_not_mem _ _⟩, ?_, ?_, ?_⟩
  · intro h
    dsimp only [ensure_correct_paths]
    rw [if_pos h]
  · intro h
    dsimp only [ensure_correct_paths]
    rw [if_neg h]
  · dsimp only [ensure_correct_paths]
    split
    · rfl
    · exact fix_resource_paths_snd stem fs.files sm
  · dsimp only [ensure_correct_paths]
    split
    · exact ⟨metaEvolves_refl _ _, metaEvolves_refl _ _, metaEvolves_refl _ _,
        metaEvolves_refl _ _, metaEvolves_refl _ _⟩
    · exact fix_resource_paths_meta stem fs.files sm
  · intro files m
    exact ⟨fixOne_skip stem files m, fixOne_rename stem files m⟩

/-- Witness for claim C7 at concrete inputs: the matching-stem no-op, the
directory rename to the new stem, and the rename of the recorded audio file
with its content carried over. -/
theorem c7_rename_pass_witness :
    ensure_correct_paths "A" fs_c7 sm_c7 = (fs_c7, sm_c7, []) ∧
    (ensure_correct_paths "B" fs_c7 sm_c7).1.dirName = DirName.plain "B" ∧
    fixOne "B" [(⟨"A", "mp3"⟩, 7)] ⟨⟨"A", "mp3"⟩, "r"⟩ =
      ([((⟨"B", "mp3"⟩ : FName), 7)], ⟨⟨"B", "mp3"⟩, "r"⟩,
        [Event.renameFile ⟨"A", "mp3"⟩ ⟨"B", "mp3"⟩]) :=
  ⟨(c7_rename_pass "A" fs_c7 sm_c7).1 rfl,
    ((c7_rename_pass "B" fs_c7 sm_c7).2.1 (by decide)).trans rfl,
    (((c7_rename_pass "B" fs_c7 sm_c7).2.2.2.2.2 [(⟨"A", "mp3"⟩, 7)]
        ⟨⟨"A", "mp3"⟩, "r"⟩).2 (by decide) (by decide) (by decide)).trans (by decide)⟩


/-! ### Claim C9 -/

theorem to_download_eq_filter (songs : List UsdbSong) :
    to_download songs =
      songs.filter (fun s => !s.is_pinned && s.canBeDownloaded) := by
  induction songs with
  | nil => rfl
  | cons s rest ih =>
    simp only [to_download]
    rw [List.filter_cons]
    by_cases hp : s.is_pinned
    · have hp' : (match s.syncMeta with
          | some m => m.pinned | none => false) = true := hp
      rw [if_pos hp']
      simp [hp, ih]
    · have hp' : ¬ (match s.syncMeta with
          | some m => m.pinned | none => false) = true := hp
      rw [if_neg hp']
      by_cases hd : s.canBeDownloaded
      · have hb : (!s.is_pinned && s.canBeDownloaded) = true := by
          simp [hd, Bool.eq_false_iff.mpr hp]
        rw [if_pos hd, if_pos hb, ih]
      · have hb : ¬ (!s.is_pinned && s.canBeDownloaded) = true := by
          simp [Bool.eq_false_iff.mpr hd]
        rw [if_neg hd, if_neg hb, ih]

theorem trashed_eq_filterMap (songs : List UsdbSong) :
    delete_selected_trashed songs = songs.filterMap
      (fun s => s.syncMeta.bind (fun m => if m.pinned then none else some m.path)) := by
  induction songs with
  | nil => rfl
  | cons s rest ih =>
    simp only [delete_selected_trashed]
    cases hsm : s.syncMeta with
    | none => simp [List.filterMap_cons, hsm, ih]
    | some m =>
      by_cases hp : m.pinned
      · simp [List.filterMap_cons, hsm, hp, ih]
      · simp [List.filterMap_cons, hsm, hp, ih]

/-- Claim C9 (confirmed): the download batch consists exactly of the
selected songs that are not pinned and whose status allows a download, the
trashed folders are exactly the sync-meta paths of the selected non-pinned
songs that have sync metadata, and a pinned selected song is never part of
the download batch. -/
theorem c9_pinned_excluded (songs : List UsdbSong) :
    to_download songs =
      songs.filter (fun s => !s.is_pinned && s.canBeDownloaded) ∧
    delete_selected_trashed songs = songs.filterMap
      (fun s => s.syncMeta.bind (fun m => if m.pinned then none else some m.path)) ∧
    (∀ s ∈ songs, s.is_pinned = true → ¬ s ∈ to_download songs) := by
  refine ⟨to_download_eq_filter songs, trashed_eq_filterMap songs, ?_⟩
  intro s hs hp hmem
  rw [to_download_eq_filter songs] at hmem
  have hf := List.mem_filter.mp hmem
  rw [hp] at hf
  simp at hf

/-- Witness for claim C9: the pinned song is excluded from the batch built
from a two-song selection. -/
theorem c9_pinned_excluded_witness :
    ¬ song_pinned ∈ to_download [song_pinned, song_plain] :=
  (c9_pinned_excluded [song_pinned, song_plain]).2.2 song_pinned
    (List.mem_cons_self _ _) rfl

/-! ### Claim C10 -/

/-- Claim C10 (refuted by the code, a code bug): whenever the batch built by
SongTable._download is nonempty, the hand-off evaluates
download_songs(to_download) with one positional argument against a callee
declaring the three required parameters infos, on_start and on_finish, so
the dispatch itself raises TypeError before any worker task starts. -/
theorem c10_dispatch_type_error (songs : List UsdbSong) :
    ¬ to_download songs = [] →
    dispatch_download_songs (to_download songs) =
      some (Except.error "TypeError: missing required positional arguments") := by
  intro h
  have he : ¬ (to_download songs).isEmpty = true := by
    simpa [List.isEmpty_iff] using h
  unfold dispatch_download_songs
  rw [if_neg he]
  rfl

/-- Witness for claim C10: one plain downloadable song makes the dispatch
raise. -/
theorem c10_dispatch_type_error_witness :
    dispatch_download_songs (to_download [song_plain]) =
      some (Except.error "TypeError: missing required positional arguments") :=
  c10_dispatch_type_error [song_plain] (by decide)
